import Mathlib

/-!
Verification development for the ICS → Notion synchronization utility
(`sync_ics_to_notion.py`).  The Python source is shallowly embedded:
strings are Lean `String`s manipulated as their underlying `List Char`,
machine integers are `Nat` with explicit `% 2^32` where overflow matters,
fallible code returns `Except`/`Option`, and the process-wide clock
(`now_jst()`) is passed explicitly as a parameter.
-/

/-! ## Basic python string primitives -/

/-- Whitespace characters stripped by python `str.strip()` (the common
subset: ASCII whitespace, NEL, NBSP and the ideographic space). -/
def isSpacePy (c : Char) : Bool :=
  c.toNat = 32 || c.toNat = 9 || c.toNat = 10 || c.toNat = 13 ||
  c.toNat = 11 || c.toNat = 12 || c.toNat = 133 || c.toNat = 160 || c.toNat = 12288

def lstripL (l : List Char) : List Char := l.dropWhile isSpacePy

/-- Right strip, formulated as a fold so that appending on the left is easy
to reason about. -/
def rstripL (l : List Char) : List Char :=
  l.foldr (fun c acc => if acc = [] && isSpacePy c then [] else c :: acc) []

def pyStripL (l : List Char) : List Char := lstripL (rstripL l)

/-- Model of python `str.strip()`. -/
def pyStripS (s : String) : String := String.mk (pyStripL s.data)

/-- Model of python `str.startswith`. -/
def hasPrefixL : List Char → List Char → Bool
  | [], _ => true
  | _ :: _, [] => false
  | p :: ps, c :: cs => p == c && hasPrefixL ps cs

/-- Model of python `sub in s` substring containment. -/
def containsSub (pat : List Char) : List Char → Bool
  | [] => hasPrefixL pat []
  | c :: cs => hasPrefixL pat (c :: cs) || containsSub pat cs

/-- Model of python `s.split(sep, 1)` for a one-character separator:
returns the parts before and after the first occurrence, if any. -/
def splitFirst (sep : Char) : List Char → Option (List Char × List Char)
  | [] => none
  | c :: cs =>
    if c == sep then some ([], cs)
    else match splitFirst sep cs with
      | none => none
      | some (l, r) => some (c :: l, r)

/-- Model of python `s.split(sep, 1)` for a multi-character separator. -/
def splitFirstSub (pat : List Char) : List Char → Option (List Char × List Char)
  | [] => none
  | c :: cs =>
    if hasPrefixL pat (c :: cs) then some ([], (c :: cs).drop pat.length)
    else match splitFirstSub pat cs with
      | none => none
      | some (l, r) => some (c :: l, r)

/-- Model of python `s.split("\n")` (empty parts kept). -/
def splitNl (l : List Char) : List (List Char) :=
  l.foldr
    (fun c acc =>
      match acc with
      | [] => [[c]]
      | a :: as_ => if c = '\n' then [] :: a :: as_ else (c :: a) :: as_)
    [[]]

/-- Model of python `s.replace(p, rep)` for a one-character pattern. -/
def replace1 (a : Char) (rep : List Char) : List Char → List Char
  | [] => []
  | c :: cs => if c == a then rep ++ replace1 a rep cs else c :: replace1 a rep cs

/-- Model of python `s.replace(p, rep)` for a two-character pattern
(non-overlapping, left to right, the replacement is not rescanned). -/
def replace2 (a b : Char) (rep : List Char) : List Char → List Char
  | [] => []
  | [c] => [c]
  | c :: c' :: cs =>
    if c == a && c' == b then rep ++ replace2 a b rep cs
    else c :: replace2 a b rep (c' :: cs)

/-- Model of python `s.replace(pat, rep, 1)`: replace only the first
occurrence. -/
def replaceOnce (pat rep : List Char) : List Char → List Char
  | [] => []
  | c :: cs =>
    if hasPrefixL pat (c :: cs) then rep ++ (c :: cs).drop pat.length
    else c :: replaceOnce pat rep cs

/-- ASCII decimal digit test (the digits accepted by the model of `int`). -/
def isDigitC (c : Char) : Bool := 48 ≤ c.toNat && c.toNat ≤ 57

def digitsVal (l : List Char) : Nat :=
  l.foldl (fun a c => a * 10 + (c.toNat - 48)) 0

/-- Model of python `int(s)` as used on the sliced digit fields of
`parse_ics_datetime`: accepts a non-empty run of ASCII digits (the exotic
additional forms accepted by `int` — signs, underscores, unicode digits —
are not modelled; no claim depends on them). -/
def pyIntDigits (l : List Char) : Option Nat :=
  if l ≠ [] && l.all isDigitC then some (digitsVal l) else none

/-! ## SHA-1 (`hashlib.sha1(...).hexdigest()` over UTF-8 bytes) -/

/-- UTF-8 encoding of one unicode scalar value, as a list of byte values. -/
def utf8Encode (n : Nat) : List Nat :=
  if n < 128 then [n]
  else if n < 2048 then [192 + n / 64, 128 + n % 64]
  else if n < 65536 then [224 + n / 4096, 128 + n / 64 % 64, 128 + n % 64]
  else [240 + n / 262144, 128 + n / 4096 % 64, 128 + n / 64 % 64, 128 + n % 64]

/-- `s.encode("utf-8")` (chars are valid scalar values, so the
`errors="ignore"` option of the source never fires). -/
def strBytes (s : String) : List Nat :=
  (s.data.map (fun c => utf8Encode c.toNat)).flatten

/-- Rotate a 32-bit word (a `Nat` below `2^32`) left by `s` bits. -/
def rotl (s w : Nat) : Nat := (w % 2 ^ (32 - s)) * 2 ^ s + w / 2 ^ (32 - s)

/-- SHA-1 message padding. -/
def shaPad (m : List Nat) : List Nat :=
  let z := (56 + 64 - ((m.length + 1) % 64)) % 64
  let bits := 8 * m.length
  m ++ [128] ++ List.replicate z 0 ++
    (List.range 8).map (fun j => bits / 2 ^ (8 * (7 - j)) % 256)

def chunksOf64 : Nat → List Nat → List (List Nat)
  | 0, _ => []
  | _, [] => []
  | fuel + 1, l => l.take 64 :: chunksOf64 fuel (l.drop 64)

def chunkWords (c : List Nat) : List Nat :=
  (List.range 16).map (fun i =>
    c.getD (4 * i) 0 * 16777216 + c.getD (4 * i + 1) 0 * 65536 +
      c.getD (4 * i + 2) 0 * 256 + c.getD (4 * i + 3) 0)

def extendWords (ws : List Nat) : List Nat :=
  (List.range 64).foldl
    (fun acc _ =>
      let n := acc.length
      acc ++ [rotl 1 (((acc.getD (n - 3) 0) ^^^ (acc.getD (n - 8) 0)) ^^^
        ((acc.getD (n - 14) 0) ^^^ (acc.getD (n - 16) 0)))])
    ws

def shaStep (w : List Nat) (st : Nat × Nat × Nat × Nat × Nat) (i : Nat) :
    Nat × Nat × Nat × Nat × Nat :=
  let a := st.1
  let b := st.2.1
  let c := st.2.2.1
  let d := st.2.2.2.1
  let e := st.2.2.2.2
  let f :=
    if i < 20 then (b &&& c) ||| ((4294967295 - b) &&& d)
    else if i < 40 then (b ^^^ c) ^^^ d
    else if i < 60 then ((b &&& c) ||| (b &&& d)) ||| (c &&& d)
    else (b ^^^ c) ^^^ d
  let k :=
    if i < 20 then 1518500249
    else if i < 40 then 1859775393
    else if i < 60 then 2400959708
    else 3395469782
  let temp := (rotl 5 a + f + e + k + w.getD i 0) % 4294967296
  (temp, a, rotl 30 b, c, d)

def processChunk (h : Nat × Nat × Nat × Nat × Nat) (chunk : List Nat) :
    Nat × Nat × Nat × Nat × Nat :=
  let w := extendWords (chunkWords chunk)
  let r := (List.range 80).foldl (shaStep w) h
  ((h.1 + r.1) % 4294967296, (h.2.1 + r.2.1) % 4294967296,
    (h.2.2.1 + r.2.2.1) % 4294967296, (h.2.2.2.1 + r.2.2.2.1) % 4294967296,
    (h.2.2.2.2 + r.2.2.2.2) % 4294967296)

def hexChar (n : Nat) : Char :=
  if n < 10 then Char.ofNat (48 + n) else Char.ofNat (87 + n)

def hex8 (w : Nat) : List Char :=
  (List.range 8).map (fun j => hexChar (w / 16 ^ (7 - j) % 16))

/-- The five 32-bit state words of the SHA-1 hash of the UTF-8 encoding of
the argument. -/
def sha1Words (s : String) : Nat × Nat × Nat × Nat × Nat :=
  let m := shaPad (strBytes s)
  (chunksOf64 (m.length + 1) m).foldl processChunk
    (1732584193, 4023233417, 2562383102, 271733878, 3285377520)

/-- Model of `sha1` from the source: hex digest of the SHA-1 hash of the
UTF-8 encoding of the argument. -/
def sha1 (s : String) : String :=
  String.mk (hex8 (sha1Words s).1 ++ hex8 (sha1Words s).2.1 ++ hex8 (sha1Words s).2.2.1 ++
    hex8 (sha1Words s).2.2.2.1 ++ hex8 (sha1Words s).2.2.2.2)

/-! ## Datetimes

All datetimes the program manipulates are timezone-aware and, after
parsing, always carry the fixed JST offset (+09:00), so a datetime is
modelled as its wall-clock fields; awareness and the JST offset are part
of the type's meaning. -/

structure PyDT where
  year : Nat
  month : Nat
  day : Nat
  hour : Nat
  minute : Nat
  second : Nat
deriving DecidableEq, Repr

/-- Strictly monotone encoding of the fields of a (range-valid) datetime;
python's comparison of two aware datetimes with the same offset is
equivalent to comparing these keys. -/
def dtKey (d : PyDT) : Nat :=
  ((((d.year * 13 + d.month) * 32 + d.day) * 24 + d.hour) * 60 + d.minute) * 60 + d.second

/-- Model of `a < b` on two JST-aware datetimes. -/
def dtLtB (a b : PyDT) : Bool := Nat.blt (dtKey a) (dtKey b)

def digitChar (n : Nat) : Char := Char.ofNat (48 + n)

def pad2 (n : Nat) : List Char := [digitChar (n / 10 % 10), digitChar (n % 10)]

def pad4 (n : Nat) : List Char :=
  [digitChar (n / 1000 % 10), digitChar (n / 100 % 10), digitChar (n / 10 % 10),
    digitChar (n % 10)]

/-- Model of `datetime.isoformat()` for a JST-aware datetime without
microseconds. -/
def isoDT (d : PyDT) : String :=
  String.mk (pad4 d.year ++ '-' :: pad2 d.month ++ '-' :: pad2 d.day ++
    'T' :: pad2 d.hour ++ ':' :: pad2 d.minute ++ ':' :: pad2 d.second) ++ "+09:00"

def optIso : Option PyDT → String
  | none => ""
  | some d => isoDT d

def isLeap (y : Nat) : Bool := y % 4 = 0 && (y % 100 ≠ 0 || y % 400 = 0)

def daysInMonth (y m : Nat) : Nat :=
  if m = 2 then (if isLeap y then 29 else 28)
  else if m = 4 || m = 6 || m = 9 || m = 11 then 30
  else 31

/-- Validity condition of the `datetime(y, m, d, hh, mm, ss)` constructor
(raises `ValueError` outside these ranges). -/
def datetimeValid (y mo d hh mi ss : Nat) : Bool :=
  1 ≤ y && y ≤ 9999 && 1 ≤ mo && mo ≤ 12 && 1 ≤ d && d ≤ daysInMonth y mo &&
    hh ≤ 23 && mi ≤ 59 && ss ≤ 59

def nextDay (y m d : Nat) : Option (Nat × Nat × Nat) :=
  if d < daysInMonth y m then some (y, m, d + 1)
  else if m < 12 then some (y, m + 1, 1)
  else if y < 9999 then some (y + 1, 1, 1)
  else none

/-- Model of `dt.replace(tzinfo=UTC).astimezone(JST)`: add nine hours with
calendar rollover.  `none` models the `OverflowError` python raises when the
result would exceed `datetime.max` (year 9999). -/
def utcToJst (dt : PyDT) : Option PyDT :=
  if dt.hour + 9 < 24 then some { dt with hour := dt.hour + 9 }
  else
    match nextDay dt.year dt.month dt.day with
    | some (y, m, d) => some ⟨y, m, d, dt.hour + 9 - 24, dt.minute, dt.second⟩
    | none => none

/-- Result of running `parse_ics_datetime`: a value (`some`/`none` mirroring
`datetime | None`), or an uncaught exception escaping the function
(the `astimezone` call sits outside the `try` block). -/
inductive ParseOutcome where
  | ok : Option PyDT → ParseOutcome
  | exc : ParseOutcome
deriving DecidableEq, Repr

def hasChar (c : Char) (l : List Char) : Bool := l.any (· == c)

def endsZ (l : List Char) : Bool :=
  match l.getLast? with
  | some c => c == 'Z'
  | none => false

/-- The `try` block of `parse_ics_datetime` for values containing a `T`:
slice date and time digits and validate (`none` models the caught
`ValueError`). -/
def parseT (d t : List Char) : Option (Nat × Nat × Nat × Nat × Nat × Nat) := do
  let y ← pyIntDigits (d.take 4)
  let mo ← pyIntDigits ((d.drop 4).take 2)
  let dd ← pyIntDigits ((d.drop 6).take 2)
  let hh ← pyIntDigits (t.take 2)
  let mi ← pyIntDigits ((t.drop 2).take 2)
  let ss ← if t.length ≥ 6 then pyIntDigits ((t.drop 4).take 2) else some 0
  if datetimeValid y mo dd hh mi ss then some (y, mo, dd, hh, mi, ss) else none

/-- The `try` block of `parse_ics_datetime` for date-only values. -/
def parseD (v : List Char) : Option (Nat × Nat × Nat × Nat × Nat × Nat) := do
  let y ← pyIntDigits (v.take 4)
  let mo ← pyIntDigits ((v.drop 4).take 2)
  let dd ← pyIntDigits ((v.drop 6).take 2)
  if datetimeValid y mo dd 0 0 0 then some (y, mo, dd, 0, 0, 0) else none

/-- The whole `try` block of `parse_ics_datetime`. -/
def parseCore (v : List Char) : Option (Nat × Nat × Nat × Nat × Nat × Nat) :=
  if hasChar 'T' v then
    match splitFirst 'T' v with
    | none => none
    | some (d, t) => parseT d t
  else parseD v

/-- `parse_ics_datetime` after the initial strip and emptiness check: peel
a trailing `Z`, run the `try` block, and convert UTC values to JST (the
conversion sits outside the `try`, so its overflow escapes as `exc`). -/
def parseAfterStrip (v : List Char) : ParseOutcome :=
  if endsZ v then
    match parseCore v.dropLast with
    | none => .ok none
    | some (y, mo, dd, hh, mi, ss) =>
      match utcToJst ⟨y, mo, dd, hh, mi, ss⟩ with
      | some dt => .ok (some dt)
      | none => .exc
  else
    match parseCore v with
    | none => .ok none
    | some (y, mo, dd, hh, mi, ss) => .ok (some ⟨y, mo, dd, hh, mi, ss⟩)

/-- Model of `parse_ics_datetime` from the source: strips the value, peels a
trailing `Z`, slices the digit fields (`try`/`except` returning `None` on any
`int` or `datetime` failure), and converts UTC values to JST. -/
def parse_ics_datetime (value : String) : ParseOutcome :=
  if pyStripL value.data = [] then .ok none
  else parseAfterStrip (pyStripL value.data)

/-! ## DESCRIPTION parsing (`parse_desc`, `split_vs`) -/

/-- Model of `norm_text`: normalize CRLF and CR line endings to LF. -/
def normTextL (l : List Char) : List Char :=
  replace1 ('\r') (['\n']) (replace2 ('\r') ('\n') (['\n']) l)

/-- The result dict of `parse_desc` (the `"match"` key is `matchVal`, and
`"type"` is `ptype`, renamed because they are Lean keywords). -/
structure Parsed where
  ptype : String
  tournament : String
  round : String
  kind : String
  certainty : String
  source : String
  score : String
  matchVal : String
  home : String
  away : String
deriving DecidableEq, Repr

def emptyParsed : Parsed := ⟨"", "", "", "", "", "", "", "", "", ""⟩

/-- `line.replace(label, "", 1).strip()` for a label that prefixes `line`. -/
def stripAfter (lbl : String) (line : List Char) : String :=
  String.mk (pyStripL (replaceOnce lbl.data [] line))

/-- `line.split("：", 1)[1].strip()` (callers guarantee the colon exists;
an absent colon yields `""` where python would raise `IndexError`). -/
def splitColonVal (line : List Char) : String :=
  match splitFirst ('：') line with
  | some (_, r) => String.mk (pyStripL r)
  | none => ""

/-- One iteration of the label-matching loop of `parse_desc`; the state is
the output record plus the `legacy_round_candidate` variable. -/
def descStep (st : Parsed × String) (line : List Char) : Parsed × String :=
  let out := st.1
  let legacy := st.2
  if hasPrefixL ("種別：").data line then ({ out with ptype := stripAfter ("種別：") line }, legacy)
  else if hasPrefixL ("大会：").data line then
    ({ out with tournament := stripAfter ("大会：") line }, legacy)
  else if hasPrefixL ("ラウンド：").data line then
    ({ out with round := stripAfter ("ラウンド：") line }, legacy)
  else if hasPrefixL ("節／ラウンド：").data line || hasPrefixL ("節/ラウンド：").data line then
    ({ out with round := splitColonVal line }, legacy)
  else if hasPrefixL ("区分：").data line then
    let v := stripAfter ("区分：") line
    if v = "予定" ∨ v = "結果" then ({ out with kind := v }, legacy) else (out, v)
  else if hasPrefixL ("確度：").data line then
    ({ out with certainty := stripAfter ("確度：") line }, legacy)
  else if hasPrefixL ("出典：").data line then
    ({ out with source := stripAfter ("出典：") line }, legacy)
  else if hasPrefixL ("スコア：").data line then
    ({ out with score := stripAfter ("スコア：") line }, legacy)
  else if hasPrefixL ("対戦：").data line then
    ({ out with matchVal := stripAfter ("対戦：") line }, legacy)
  else if hasPrefixL ("ホーム：").data line then
    ({ out with home := stripAfter ("ホーム：") line }, legacy)
  else if hasPrefixL ("アウェイ：").data line then
    ({ out with away := stripAfter ("アウェイ：") line }, legacy)
  else (out, legacy)

/-- Regex whitespace class `\s` as applied by python `re` to `str`
(unicode mode); modelled with the same character set as `str.strip()`. -/
def isSpaceRe (c : Char) : Bool := isSpacePy c

/-- The separator alternatives of the `split_vs` fallback regex
`(.+?)\s*(?:vs|VS|Vs|ｖｓ)\s*(.+)`, in alternation order. -/
def vsWords : List (List Char) := [("vs").data, ("VS").data, ("Vs").data, ("ｖｓ").data]

/-- Try to complete the fallback-regex match right after a candidate first
group: `\s*`, one of the `vs` spellings, `\s*`, then a non-empty remainder. -/
def vsTryAt (rest : List Char) : Option (List Char) :=
  let r1 := rest.dropWhile isSpaceRe
  match vsWords.find? (fun w => hasPrefixL w r1) with
  | none => none
  | some w =>
    let r2 := (r1.drop w.length).dropWhile isSpaceRe
    if r2 = [] then none else some r2

/-- Scan of the fallback regex: the lazy group `(.+?)` grows one character
at a time from the left. -/
def vsScan (acc rest : List Char) : Option (List Char × List Char) :=
  match vsTryAt rest with
  | some r => some (acc, r)
  | none =>
    match rest with
    | [] => none
    | c :: rs => vsScan (acc ++ [c]) rs

/-- Model of `split_vs`: split `"A vs B"` on the first of a list of literal
separators, falling back to the regex `(.+?)\s*(?:vs|VS|Vs|ｖｓ)\s*(.+)`. -/
def split_vs (s : String) : String × String :=
  if s = "" then ("", "")
  else
    let seps : List String := [" vs ", " VS ", " Vs ", " ｖｓ ", " v ", " V ", "　vs　", "　VS　"]
    match seps.find? (fun sep => containsSub sep.data s.data) with
    | some sep =>
      match splitFirstSub sep.data s.data with
      | some (l, r) => (String.mk (pyStripL l), String.mk (pyStripL r))
      | none => ("", "")
    | none =>
      match s.data with
      | [] => ("", "")
      | c :: rs =>
        match vsScan [c] rs with
        | some (h, a) => (String.mk (pyStripL h), String.mk (pyStripL a))
        | none => ("", "")

/-- The line preprocessing of `parse_desc`: normalize line endings and the
escaped `\\n` sequences, split into lines, strip each, drop empties. -/
def descLines (desc : String) : List (List Char) :=
  ((splitNl (replace2 ('\\') ('n') (['\n']) (normTextL desc.data))).map pyStripL).filter
    (· ≠ [])

/-- `if h and not out["home"]: out["home"] = h` of `parse_desc`. -/
def mergeHome (out : Parsed) (h : String) : Parsed :=
  if h ≠ "" ∧ out.home = "" then { out with home := h } else out

/-- `if a and not out["away"]: out["away"] = a` of `parse_desc`. -/
def mergeAway (out : Parsed) (a : String) : Parsed :=
  if a ≠ "" ∧ out.away = "" then { out with away := a } else out

/-- The `対戦 → home/away` stage of `parse_desc`. -/
def mergeMatch (out : Parsed) : Parsed :=
  if (out.home = "" ∨ out.away = "") ∧ out.matchVal ≠ "" then
    mergeAway (mergeHome out (split_vs out.matchVal).1) (split_vs out.matchVal).2
  else out

/-- The two post-loop stages of `parse_desc`: rescue a legacy
`区分：<non-enum>` value as the round, then derive home/away from `対戦：`. -/
def descMerge (st : Parsed × String) : Parsed :=
  mergeMatch (if st.1.round = "" ∧ st.2 ≠ "" then { st.1 with round := st.2 } else st.1)

/-- Model of `parse_desc` from the source: normalize escapes, split into
stripped non-empty lines, run the label loop, and apply the post-loop
merges. -/
def parse_desc (desc : String) : Parsed :=
  descMerge ((descLines desc).foldl descStep (emptyParsed, ""))

/-! ## SUMMARY score extraction (`parse_score_from_summary`, `clean_score`) -/

/-- Optional parenthesized sub-score `(\(\d+\))?` starting at `l`; returns
the consumed characters and the remainder. -/
def tryParen (op cl : Char) (l : List Char) : List Char × List Char :=
  match l with
  | c :: rest =>
    if c = op then
      let ds := rest.takeWhile isDigitC
      if ds ≠ [] then
        match rest.drop ds.length with
        | c' :: rest' => if c' = cl then (c :: ds ++ [c'], rest') else ([], l)
        | [] => ([], l)
      else ([], l)
    else ([], l)
  | [] => ([], l)

/-- Optional penalty-shootout suffix `(?:\s*（PK\d+(?:-\d+)?）)?` (with the
given bracket pair); returns consumed characters and remainder. -/
def tryPK (op cl : Char) (l : List Char) : List Char × List Char :=
  let sp := l.takeWhile isSpaceRe
  let r := l.drop sp.length
  match r with
  | c :: rest =>
    if c = op ∧ hasPrefixL (('P') :: ['K']) rest then
      let afterPK := rest.drop 2
      let d1 := afterPK.takeWhile isDigitC
      if d1 = [] then ([], l)
      else
        let r1 := afterPK.drop d1.length
        let (dash, r2) :=
          match r1 with
          | '-' :: rr =>
            let d2 := rr.takeWhile isDigitC
            if d2 ≠ [] then ('-' :: d2, rr.drop d2.length) else ([], r1)
          | _ => ([], r1)
        match r2 with
        | c' :: rest' =>
          if c' = cl then (sp ++ c :: 'P' :: 'K' :: d1 ++ dash ++ [c'], rest') else ([], l)
        | [] => ([], l)
    else ([], l)
  | [] => ([], l)

/-- The score kernel of pattern 1:
`\d+(?:\(\d+\))?\s*-\s*\d+(?:\(\d+\))?(?:\s*（PK…）)?(?:\s*\(PK…\))?`.
Returns the matched characters and the remainder. -/
def matchScore (l : List Char) : Option (List Char × List Char) :=
  let d1 := l.takeWhile isDigitC
  if d1 = [] then none
  else
    let r := l.drop d1.length
    let (p1, r) := tryParen ('(') (')') r
    let sp1 := r.takeWhile isSpaceRe
    let r := r.drop sp1.length
    match r with
    | '-' :: r2 =>
      let sp2 := r2.takeWhile isSpaceRe
      let r3 := r2.drop sp2.length
      let d2 := r3.takeWhile isDigitC
      if d2 = [] then none
      else
        let r4 := r3.drop d2.length
        let (p2, r5) := tryParen ('(') (')') r4
        let (pkf, r6) := tryPK ('（') ('）') r5
        let (pkh, r7) := tryPK ('(') (')') r6
        some (d1 ++ p1 ++ sp1 ++ '-' :: sp2 ++ d2 ++ p2 ++ pkf ++ pkh, r7)
    | _ => none

/-- Try to complete pattern 1 right after a candidate first group:
`\s+`, the score kernel, `\s+`, then a non-empty remainder to the end. -/
def p1TryAt (rest : List Char) : Option (List Char × List Char) :=
  let sp := rest.takeWhile isSpaceRe
  if sp = [] then none
  else
    match matchScore (rest.drop sp.length) with
    | none => none
    | some (sc, r) =>
      let sp2 := r.takeWhile isSpaceRe
      if sp2 = [] then none
      else
        let r2 := r.drop sp2.length
        if r2 = [] then none else some (sc, r2)

/-- Scan of pattern 1 `^(.+?)\s+(score)\s+(.+?)$`: the lazy first group
grows one character at a time. -/
def p1Scan (acc rest : List Char) : Option (List Char × List Char × List Char) :=
  match p1TryAt rest with
  | some (sc, r) => some (acc, sc, r)
  | none =>
    match rest with
    | [] => none
    | c :: rs => p1Scan (acc ++ [c]) rs

def clean_score (score : String) : String :=
  String.mk (pyStripL (replace1 ('　') ([' ']) score.data))

/-- Model of `parse_score_from_summary`: pattern 1 (`A 4 - 0 B` with
optional sub-scores and PK suffix), else pattern 2 (`A vs B／5-2`), else
pattern 3 (`A vs B`), else empties. -/
def parse_score_from_summary (summary : String) : String × String × String :=
  let s := pyStripL summary.data
  let p1 :=
    match s with
    | [] => none
    | c :: rs => p1Scan [c] rs
  match p1 with
  | some (h, sc, a) =>
    (String.mk (pyStripL h), clean_score (String.mk sc), String.mk (pyStripL a))
  | none =>
    let p3 : String × String × String :=
      let ha := split_vs (String.mk s)
      if ha.1 ≠ "" ∧ ha.2 ≠ "" then (ha.1, "", ha.2) else ("", "", "")
    if containsSub ("／").data s then
      match splitFirstSub ("／").data s with
      | some (l, r) =>
        let ha := split_vs (String.mk l)
        if ha.1 ≠ "" ∧ ha.2 ≠ "" then
          (ha.1, clean_score (String.mk (pyStripL r)), ha.2)
        else p3
      | none => p3
    else p3

/-! ## Field resolution (`build_item`) -/

/-- One normalized event as produced by `parse_ics_events`: plain fields
plus already-parsed optional timestamps. -/
structure RawEvent where
  uid : String
  summary : String
  location : String
  description : String
  dtstart : Option PyDT
  dtend : Option PyDT
deriving DecidableEq, Repr

/-- The fully resolved record returned by `build_item`. -/
structure Item where
  uid : String
  summary : String
  title : String
  location : String
  dtstart : PyDT
  dtend : Option PyDT
  tournament : String
  round : String
  kind : String
  certainty : String
  home : String
  away : String
  score : String
  source : String
  fingerprint : String
deriving DecidableEq, Repr

/-- `summary.split("／", 1)[1]` then `.split("／", 1)[0].strip()`. -/
def tournamentFromSummary (summary : String) : String :=
  match splitFirstSub ("／").data summary.data with
  | none => summary
  | some (_, tmp) =>
    match splitFirstSub ("／").data tmp with
    | none => String.mk (pyStripL tmp)
    | some (hd, _) => String.mk (pyStripL hd)

/-- The `"|"`-joined string hashed into the fingerprint, expressed over the
final resolved fields (exactly the values stored in the returned item). -/
def fpInput (uid summary location : String) (dtstart : PyDT) (dtend : Option PyDT)
    (tournament round kind certainty home away score source : String) : String :=
  String.intercalate "|"
    [uid, summary, location, isoDT dtstart, optIso dtend, tournament, round, kind,
      certainty, home, away, score, source]

def fpInputOf (it : Item) : String :=
  fpInput it.uid it.summary it.location it.dtstart it.dtend it.tournament it.round
    it.kind it.certainty it.home it.away it.score it.source

/-- Assembles the returned record; as in the source, the fingerprint is the
hash of exactly the local values stored into the record. -/
def mkItem (uid summary location : String) (dtstart : PyDT) (dtend : Option PyDT)
    (title tournament round kind certainty home away score source : String) : Item :=
  { uid := uid, summary := summary, title := title, location := location,
    dtstart := dtstart, dtend := dtend, tournament := tournament, round := round,
    kind := kind, certainty := certainty, home := home, away := away, score := score,
    source := source,
    fingerprint := sha1 (fpInput uid summary location dtstart dtend tournament round kind
      certainty home away score source) }

/-- Model of `build_item`: resolves every field of one event; raising
`ValueError` on a missing DTSTART is modelled by `Except.error` carrying the
python message. -/
def build_item (now : PyDT) (ev : RawEvent) : Except String Item :=
  match ev.dtstart with
  | none => .error ("DTSTARTがありません: UID=" ++ ev.uid)
  | some dtstart =>
    let parsed := parse_desc ev.description
    let kind :=
      if parsed.kind = "予定" ∨ parsed.kind = "結果" then parsed.kind
      else if dtLtB now dtstart then "予定" else "結果"
    let certainty :=
      if parsed.certainty = "確定" ∨ parsed.certainty = "暫定" ∨ parsed.certainty = "未定" then
        parsed.certainty
      else if ev.location = "" ∨ containsSub ("会場不明").data ev.location.data then "未定"
      else "暫定"
    let tournament :=
      if parsed.tournament ≠ "" then parsed.tournament
      else if containsSub ("／").data ev.summary.data then tournamentFromSummary ev.summary
      else ev.summary
    let round := parsed.round
    let fromSummary := ¬(parsed.home ≠ "" ∧ parsed.away ≠ "")
    let sum3 := parse_score_from_summary ev.summary
    let home :=
      if fromSummary ∧ sum3.1 ≠ "" ∧ parsed.home = "" then sum3.1 else parsed.home
    let away :=
      if fromSummary ∧ sum3.2.2 ≠ "" ∧ parsed.away = "" then sum3.2.2 else parsed.away
    let score :=
      if fromSummary ∧ sum3.2.1 ≠ "" ∧ parsed.score = "" then sum3.2.1 else parsed.score
    let title :=
      if home ≠ "" ∧ away ≠ "" then
        if score ≠ "" then home ++ " " ++ score ++ " " ++ away
        else home ++ " vs " ++ away
      else if round ≠ "" then round
      else ev.summary
    .ok (mkItem ev.uid ev.summary ev.location dtstart ev.dtend title tournament round kind
      certainty home away score parsed.source)

/-- Default used only to totalize projections out of `Except`. -/
def defaultItem : Item :=
  ⟨"", "", "", "", ⟨0, 0, 0, 0, 0, 0⟩, none, "", "", "", "", "", "", "", "", ""⟩

def itemOf (e : Except String Item) : Item :=
  match e with
  | .ok it => it
  | .error _ => defaultItem

/-! ## Notion write payload (`build_notion_props`) -/

/-- One Notion property value as emitted by the script. -/
inductive NProp where
  | titleP : String → NProp
  | richText : Option String → NProp
  | selectP : String → NProp
  | dateP : Option String → NProp
deriving DecidableEq, Repr

/-- `safe_rich_text`: empty strings become an empty rich-text array. -/
def safe_rich_text (s : String) : NProp :=
  if s = "" then .richText none else .richText (some s)

/-- `safe_title`: empty titles become `"(no title)"`. -/
def safe_title (s : String) : NProp :=
  if s = "" then .titleP "(no title)" else .titleP s

def to_notion_date (d : Option PyDT) : Option String :=
  match d with
  | none => none
  | some dt => some (isoDT dt)

/-- Model of `build_notion_props`: the core keys are always present; only
ホーム / アウェイ / スコア are gated on the introspected schema (the 種別
branch is a `pass` in the source and adds nothing). -/
def build_notion_props (now : PyDT) (item : Item) (dbPropNames : List String) :
    List (String × NProp) :=
  [("カード", safe_title item.title),
   ("開始", .dateP (to_notion_date (some item.dtstart))),
   ("終了", .dateP (to_notion_date item.dtend)),
   ("大会", safe_rich_text item.tournament),
   ("節／ラウンド", safe_rich_text item.round),
   ("会場", safe_rich_text item.location),
   ("区分", .selectP item.kind),
   ("確度", .selectP item.certainty),
   ("更新日", .dateP (to_notion_date (some now))),
   ("UID", safe_rich_text item.uid),
   ("出典", safe_rich_text item.source),
   ("fingerprint", safe_rich_text item.fingerprint)] ++
  (if ("ホーム" : String) ∈ dbPropNames then [("ホーム", safe_rich_text item.home)] else []) ++
  (if ("アウェイ" : String) ∈ dbPropNames then [("アウェイ", safe_rich_text item.away)] else []) ++
  (if ("スコア" : String) ∈ dbPropNames then [("スコア", safe_rich_text item.score)] else [])

def propKeys (props : List (String × NProp)) : List String := props.map Prod.fst

/-! ## Reconciliation (`main` loop) -/

/-- One existing Notion page, reduced to what the script reads from it:
its id and the optional UID / fingerprint rich-text values (`none` models
both an absent property and an empty rich-text array, which
`page_uid_from_props` / `page_fp_from_props` both collapse to `""`). -/
structure Page where
  pageId : String
  uidProp : Option String
  fpProp : Option String
deriving DecidableEq, Repr

def page_uid (pg : Page) : String :=
  match pg.uidProp with
  | some s => pyStripS s
  | none => ""

def page_fp (pg : Page) : String :=
  match pg.fpProp with
  | some s => pyStripS s
  | none => ""

/-- The `by_uid` dict of `main`, as a lookup: pages with an empty UID are
not inserted, and a later page overwrites an earlier one with the same
UID. -/
def by_uid_lookup (pages : List Page) (uid : String) : Option Page :=
  pages.foldl (fun acc pg => if page_uid pg ≠ "" ∧ page_uid pg = uid then some pg else acc) none

inductive SyncAction where
  | create : SyncAction
  | update : SyncAction
  | skip : SyncAction
deriving DecidableEq, Repr

/-- The per-item decision of the reconciliation loop of `main`. -/
def classify (pages : List Page) (it : Item) : SyncAction :=
  match by_uid_lookup pages it.uid with
  | none => .create
  | some pg => if page_fp pg = it.fingerprint then .skip else .update

inductive WriteOp where
  | createW : String → WriteOp
  | updateW : String → String → WriteOp
deriving DecidableEq, Repr

/-- The write the loop issues for one item, if any (`pages.create` /
`pages.update`); `none` on Skip. -/
def writeOf (pages : List Page) (it : Item) : Option WriteOp :=
  match by_uid_lookup pages it.uid with
  | none => some (.createW it.uid)
  | some pg => if page_fp pg = it.fingerprint then none else some (.updateW pg.pageId it.uid)

/-- All writes issued for a batch, in order. -/
def reconcileWrites (pages : List Page) (items : List Item) : List WriteOp :=
  items.filterMap (writeOf pages)

/-! ## The batch phase of `main` -/

/-- The item-building loop of `main`: events without a UID are skipped,
`build_item` is called on the rest, and an uncaught `ValueError` aborts the
whole loop. -/
def buildItems (now : PyDT) : List RawEvent → Except String (List Item)
  | [] => .ok []
  | ev :: rest =>
    if ev.uid = "" then buildItems now rest
    else
      match build_item now ev with
      | .error e => .error e
      | .ok it =>
        match buildItems now rest with
        | .error e => .error e
        | .ok l => .ok (it :: l)

/-- Exit status of the process for the phase after configuration checks:
an uncaught exception terminates the interpreter with status 1, otherwise
`main` returns 0. -/
def syncExitCode (now : PyDT) (evs : List RawEvent) : Nat :=
  match buildItems now evs with
  | .error _ => 1
  | .ok _ => 0

/-! ## Timestamp format helpers (for stating C9) -/

/-- Zero-padded local date-time form `YYYYMMDDTHHMMSS`. -/
def fmtLocal (y mo d hh mi s : Nat) : String :=
  String.mk (pad4 y ++ pad2 mo ++ pad2 d ++ 'T' :: (pad2 hh ++ pad2 mi ++ pad2 s))

/-- Zero-padded date-only form `YYYYMMDD`. -/
def fmtDate (y mo d : Nat) : String :=
  String.mk (pad4 y ++ pad2 mo ++ pad2 d)

/-- Zero-padded UTC form `YYYYMMDDTHHMMSSZ`. -/
def fmtZulu (y mo d hh mi s : Nat) : String :=
  String.mk ((pad4 y ++ pad2 mo ++ pad2 d ++ 'T' :: (pad2 hh ++ pad2 mi ++ pad2 s)) ++ ['Z'])

/-- Modelled from the spec: the three "recognized" timestamp forms the
(docstring of the) parser documents — `YYYYMMDDTHHMMSS`, the same with a
trailing `Z`, and date-only `YYYYMMDD`; only the shape (digit positions and
separators) is specified. -/
def recognizedForm (s : String) : Bool :=
  let dt15 := fun (m : List Char) =>
    m.length = 15 && (m.take 8).all isDigitC && hasPrefixL (['T']) (m.drop 8) &&
      (m.drop 9).all isDigitC
  let l := s.data
  (l.length = 8 && l.all isDigitC) || dt15 l || (endsZ l && dt15 l.dropLast)

/-! ## Concrete inputs used by counterexamples and witnesses -/

/-- The fixed run clock used in concrete instances: 2025-06-01T00:00:00+09:00. -/
def nowC : PyDT := ⟨2025, 6, 1, 0, 0, 0⟩

def ev7 : RawEvent :=
  ⟨"u7", "清風 4 - 0 追手門学院", "", "", some ⟨2025, 1, 1, 12, 0, 0⟩, none⟩

def evX : RawEvent :=
  ⟨"u", "A", "B|C", "大会：T\nホーム：H\nアウェイ：W", some ⟨2025, 1, 1, 12, 0, 0⟩, none⟩

def evY : RawEvent :=
  ⟨"u", "A|B", "C", "大会：T\nホーム：H\nアウェイ：W", some ⟨2025, 1, 1, 12, 0, 0⟩, none⟩

def evBad : RawEvent := ⟨"ub", "s", "", "", none, none⟩

def evGood : RawEvent := ⟨"ug", "s", "", "", some ⟨2025, 1, 1, 0, 0, 0⟩, none⟩

def evScore : RawEvent :=
  ⟨"u2", "x", "", "スコア：1-0", some ⟨2025, 12, 1, 12, 0, 0⟩, some ⟨2025, 12, 1, 14, 0, 0⟩⟩

def evPast : RawEvent :=
  ⟨"u3", "x", "", "", some ⟨2025, 1, 1, 12, 0, 0⟩, some ⟨2025, 12, 31, 12, 0, 0⟩⟩

/-! ## Foundational lemmas -/

lemma hex8_length (w : Nat) : (hex8 w).length = 8 := by
  simp [hex8]

lemma sha1_length (s : String) : (sha1 s).length = 40 := by
  show (hex8 (sha1Words s).1 ++ hex8 (sha1Words s).2.1 ++ hex8 (sha1Words s).2.2.1 ++
      hex8 (sha1Words s).2.2.2.1 ++ hex8 (sha1Words s).2.2.2.2).length = 40
  simp [List.length_append, hex8_length]

lemma sha1_ne_empty (s : String) : sha1 s ≠ "" := by
  intro h
  have h40 := sha1_length s
  rw [h] at h40
  simp [String.length] at h40

section MkItemProj

variable (uid summary location : String) (dtstart : PyDT) (dtend : Option PyDT)
variable (title tournament round kind certainty home away score source : String)

@[simp] lemma mkItem_uid :
    (mkItem uid summary location dtstart dtend title tournament round kind certainty home
      away score source).uid = uid := rfl

@[simp] lemma mkItem_summary :
    (mkItem uid summary location dtstart dtend title tournament round kind certainty home
      away score source).summary = summary := rfl

@[simp] lemma mkItem_location :
    (mkItem uid summary location dtstart dtend title tournament round kind certainty home
      away score source).location = location := rfl

@[simp] lemma mkItem_dtstart :
    (mkItem uid summary location dtstart dtend title tournament round kind certainty home
      away score source).dtstart = dtstart := rfl

@[simp] lemma mkItem_dtend :
    (mkItem uid summary location dtstart dtend title tournament round kind certainty home
      away score source).dtend = dtend := rfl

@[simp] lemma mkItem_title :
    (mkItem uid summary location dtstart dtend title tournament round kind certainty home
      away score source).title = title := rfl

@[simp] lemma mkItem_tournament :
    (mkItem uid summary location dtstart dtend title tournament round kind certainty home
      away score source).tournament = tournament := rfl

@[simp] lemma mkItem_round :
    (mkItem uid summary location dtstart dtend title tournament round kind certainty home
      away score source).round = round := rfl

@[simp] lemma mkItem_kind :
    (mkItem uid summary location dtstart dtend title tournament round kind certainty home
      away score source).kind = kind := rfl

@[simp] lemma mkItem_certainty :
    (mkItem uid summary location dtstart dtend title tournament round kind certainty home
      away score source).certainty = certainty := rfl

@[simp] lemma mkItem_home :
    (mkItem uid summary location dtstart dtend title tournament round kind certainty home
      away score source).home = home := rfl

@[simp] lemma mkItem_away :
    (mkItem uid summary location dtstart dtend title tournament round kind certainty home
      away score source).away = away := rfl

@[simp] lemma mkItem_score :
    (mkItem uid summary location dtstart dtend title tournament round kind certainty home
      away score source).score = score := rfl

@[simp] lemma mkItem_source :
    (mkItem uid summary location dtstart dtend title tournament round kind certainty home
      away score source).source = source := rfl

@[simp] lemma mkItem_fingerprint :
    (mkItem uid summary location dtstart dtend title tournament round kind certainty home
        away score source).fingerprint =
      sha1 (fpInput uid summary location dtstart dtend tournament round kind certainty home
        away score source) := rfl

lemma mkItem_fp :
    (mkItem uid summary location dtstart dtend title tournament round kind certainty home
        away score source).fingerprint =
      sha1 (fpInputOf (mkItem uid summary location dtstart dtend title tournament round kind
        certainty home away score source)) := by
  simp only [fpInputOf, mkItem_uid, mkItem_summary, mkItem_location, mkItem_dtstart,
    mkItem_dtend, mkItem_tournament, mkItem_round, mkItem_kind, mkItem_certainty,
    mkItem_home, mkItem_away, mkItem_score, mkItem_source, mkItem_fingerprint]

end MkItemProj

/-- Every item returned by `build_item` carries the SHA-1 of the joined
final field values as its fingerprint. -/
lemma build_item_fp (now : PyDT) (ev : RawEvent) (it : Item)
    (h : build_item now ev = .ok it) : it.fingerprint = sha1 (fpInputOf it) := by
  cases hst : ev.dtstart with
  | none => unfold build_item at h; rw [hst] at h; simp at h
  | some dt =>
    unfold build_item at h
    rw [hst] at h
    injection h with h2
    subst h2
    exact mkItem_fp _ _ _ _ _ _ _ _ _ _ _ _ _ _

/-- A missing start makes `build_item` raise with the python message. -/
lemma build_item_err (now : PyDT) (ev : RawEvent) (h : ev.dtstart = none) :
    build_item now ev = .error ("DTSTARTがありません: UID=" ++ ev.uid) := by
  unfold build_item
  rw [h]

/-- A present start makes `build_item` succeed. -/
lemma build_item_ok_ex (now : PyDT) (ev : RawEvent) (dt : PyDT)
    (h : ev.dtstart = some dt) : ∃ it, build_item now ev = .ok it := by
  unfold build_item
  rw [h]
  exact ⟨_, rfl⟩

/-! ## Claim theorems: concrete counterexamples -/

/-- C7 counterexample: for the event whose summary is exactly
`清風 4 - 0 追手門学院`, the resolved score keeps the spaces around the
hyphen (`clean_score` only converts ideographic spaces and strips the
ends), so it is `4 - 0` and not the claimed `4-0`. -/
theorem c7_counterexample :
    (itemOf (build_item nowC ev7)).score = "4 - 0" ∧
      (itemOf (build_item nowC ev7)).score ≠ "4-0" := by
  constructor <;> decide

/-- C7 amended: the event with summary `清風 4 - 0 追手門学院` and no
description labels resolves home `清風`, away `追手門学院` and score
`4 - 0` (the matched score substring verbatim, spaces preserved). -/
theorem c7_matchup_splitting :
    (itemOf (build_item nowC ev7)).home = "清風" ∧
      (itemOf (build_item nowC ev7)).away = "追手門学院" ∧
      (itemOf (build_item nowC ev7)).score = "4 - 0" := by
  refine ⟨by decide, by decide, by decide⟩

/-- C5 counterexample: two events that differ in two visible fields
(summary and location) but whose resolved records hash the same
`"|"`-joined string, hence carry identical fingerprints: the pipe
delimiter occurs inside a field value. -/
theorem c5_counterexample :
    (itemOf (build_item nowC evX)).summary ≠ (itemOf (build_item nowC evY)).summary ∧
      (itemOf (build_item nowC evX)).location ≠ (itemOf (build_item nowC evY)).location ∧
      (itemOf (build_item nowC evX)).fingerprint = (itemOf (build_item nowC evY)).fingerprint := by
  refine ⟨by decide, by decide, ?_⟩
  have hx : build_item nowC evX = .ok (itemOf (build_item nowC evX)) := rfl
  have hy : build_item nowC evY = .ok (itemOf (build_item nowC evY)) := rfl
  rw [build_item_fp nowC evX _ hx, build_item_fp nowC evY _ hy]
  have h3 : fpInputOf (itemOf (build_item nowC evX)) =
      fpInputOf (itemOf (build_item nowC evY)) := by decide
  rw [h3]

/-- C1 counterexample: in a batch whose first event has a UID but no start
timestamp, `build_item` raises and nothing catches it: the whole run
aborts with the `ValueError` message and the interpreter exits with
status 1, not 0; the remaining events are not processed. -/
theorem c1_counterexample :
    buildItems nowC [evBad, evGood] = .error ("DTSTARTがありません: UID=ub") ∧
      evBad.uid ≠ "" ∧ syncExitCode nowC [evBad, evGood] = 1 := by
  refine ⟨rfl, by decide, by decide⟩

/-- C2 counterexample: with no valid label, an event with a resolved score
but a future start gets statusKind `予定` (Scheduled), and an event with
no score whose end lies in the future but whose start has passed gets
`結果` (Result): the inference reads the start timestamp only, not the
score or the end. -/
theorem c2_counterexample :
    (itemOf (build_item nowC evScore)).score = "1-0" ∧
      (itemOf (build_item nowC evScore)).kind = "予定" ∧
      (itemOf (build_item nowC evPast)).score = "" ∧
      dtLtB nowC ⟨2025, 12, 31, 12, 0, 0⟩ = true ∧
      (itemOf (build_item nowC evPast)).kind = "結果" := by
  refine ⟨by decide, by decide, by decide, by decide, by decide⟩

/-- C9 counterexample: the recognized UTC form `99991231T230000Z` makes the
`astimezone` call (outside the `try` block) overflow `datetime.max`, so the
parser raises instead of returning a datetime or None; and the undocumented
seconds-less form `20251207T0915` parses successfully instead of yielding
None. -/
theorem c9_counterexample :
    parse_ics_datetime ("99991231T230000Z") = ParseOutcome.exc ∧
      recognizedForm ("99991231T230000Z") = true ∧
      parse_ics_datetime ("20251207T0915") =
        ParseOutcome.ok (some ⟨2025, 12, 7, 9, 15, 0⟩) ∧
      recognizedForm ("20251207T0915") = false := by
  refine ⟨by decide, by decide, by decide, by decide⟩

/-! ## Digit and padding lemmas (towards C9) -/

lemma digitChar_toNat (n : Nat) (h : n < 10) : (digitChar n).toNat = 48 + n := by
  interval_cases n <;> decide

lemma digitChar_digit (n : Nat) (h : n < 10) : isDigitC (digitChar n) = true := by
  have e := digitChar_toNat n h
  simp [isDigitC, e]
  omega

lemma digit_not_space (c : Char) (h : isDigitC c = true) : isSpacePy c = false := by
  simp [isDigitC] at h
  simp [isSpacePy]
  omega

lemma digit_ne_T (c : Char) (h : isDigitC c = true) : (c == 'T') = false := by
  cases hb : c == 'T' with
  | false => rfl
  | true =>
    rw [beq_iff_eq] at hb
    subst hb
    exact absurd h (by decide)

lemma digit_ne_Z (c : Char) (h : isDigitC c = true) : (c == 'Z') = false := by
  cases hb : c == 'Z' with
  | false => rfl
  | true =>
    rw [beq_iff_eq] at hb
    subst hb
    exact absurd h (by decide)

lemma pad2_digits (n : Nat) : (pad2 n).all isDigitC = true := by
  have h1 := digitChar_digit (n / 10 % 10) (Nat.mod_lt _ (by norm_num))
  have h2 := digitChar_digit (n % 10) (Nat.mod_lt _ (by norm_num))
  simp [pad2, h1, h2]

lemma pad4_digits (n : Nat) : (pad4 n).all isDigitC = true := by
  have h1 := digitChar_digit (n / 1000 % 10) (Nat.mod_lt _ (by norm_num))
  have h2 := digitChar_digit (n / 100 % 10) (Nat.mod_lt _ (by norm_num))
  have h3 := digitChar_digit (n / 10 % 10) (Nat.mod_lt _ (by norm_num))
  have h4 := digitChar_digit (n % 10) (Nat.mod_lt _ (by norm_num))
  simp [pad4, h1, h2, h3, h4]

lemma digitsVal_pad2 (n : Nat) (h : n < 100) : digitsVal (pad2 n) = n := by
  have e1 := digitChar_toNat (n / 10 % 10) (Nat.mod_lt _ (by norm_num))
  have e2 := digitChar_toNat (n % 10) (Nat.mod_lt _ (by norm_num))
  simp [digitsVal, pad2, e1, e2]
  omega

lemma digitsVal_pad4 (n : Nat) (h : n < 10000) : digitsVal (pad4 n) = n := by
  have e1 := digitChar_toNat (n / 1000 % 10) (Nat.mod_lt _ (by norm_num))
  have e2 := digitChar_toNat (n / 100 % 10) (Nat.mod_lt _ (by norm_num))
  have e3 := digitChar_toNat (n / 10 % 10) (Nat.mod_lt _ (by norm_num))
  have e4 := digitChar_toNat (n % 10) (Nat.mod_lt _ (by norm_num))
  simp [digitsVal, pad4, e1, e2, e3, e4]
  omega

lemma pyIntDigits_pad2 (n : Nat) (h : n < 100) : pyIntDigits (pad2 n) = some n := by
  rw [pyIntDigits]
  rw [if_pos]
  · rw [digitsVal_pad2 n h]
  · simp [pad2]
    exact ⟨digitChar_digit _ (Nat.mod_lt _ (by norm_num)),
      digitChar_digit _ (Nat.mod_lt _ (by norm_num))⟩

lemma pyIntDigits_pad4 (n : Nat) (h : n < 10000) : pyIntDigits (pad4 n) = some n := by
  rw [pyIntDigits]
  rw [if_pos]
  · rw [digitsVal_pad4 n h]
  · simp [pad4]
    exact ⟨digitChar_digit _ (Nat.mod_lt _ (by norm_num)),
      digitChar_digit _ (Nat.mod_lt _ (by norm_num)),
      digitChar_digit _ (Nat.mod_lt _ (by norm_num)),
      digitChar_digit _ (Nat.mod_lt _ (by norm_num))⟩

/-! ## List lemmas for the timestamp parser -/

lemma data_mk (l : List Char) : (String.mk l).data = l := rfl

lemma rstripL_eq_self (l : List Char) (h : ∀ c ∈ l, isSpacePy c = false) :
    rstripL l = l := by
  induction l with
  | nil => rfl
  | cons c cs ih =>
    have hc := h c (by simp)
    have ih2 := ih (fun x hx => h x (by simp [hx]))
    unfold rstripL at ih2 ⊢
    rw [List.foldr_cons, ih2]
    simp [hc]

lemma lstripL_eq_self (l : List Char) (h : ∀ c ∈ l, isSpacePy c = false) :
    lstripL l = l := by
  cases l with
  | nil => rfl
  | cons c cs =>
    have hc := h c (by simp)
    simp [lstripL, List.dropWhile_cons, hc]

lemma pyStripL_eq_self (l : List Char) (h : ∀ c ∈ l, isSpacePy c = false) :
    pyStripL l = l := by
  unfold pyStripL
  rw [rstripL_eq_self l h, lstripL_eq_self l h]

lemma splitFirst_of_no_sep (sep : Char) (l1 l2 : List Char)
    (h : ∀ c ∈ l1, (c == sep) = false) :
    splitFirst sep (l1 ++ sep :: l2) = some (l1, l2) := by
  induction l1 with
  | nil => simp [splitFirst]
  | cons c cs ih =>
    have hc := h c (by simp)
    have ih2 := ih (fun x hx => h x (by simp [hx]))
    simp [splitFirst, hc, ih2]

lemma hasChar_false_of_digits (l : List Char) (h : l.all isDigitC = true) :
    hasChar ('T') l = false := by
  rw [List.all_eq_true] at h
  unfold hasChar
  rw [Bool.eq_false_iff]
  intro habs
  rw [List.any_eq_true] at habs
  obtain ⟨c, hc, hb⟩ := habs
  rw [digit_ne_T c (h c hc)] at hb
  cases hb

lemma endsZ_append (l1 l2 : List Char) (h : l2 ≠ []) :
    endsZ (l1 ++ l2) = endsZ l2 := by
  unfold endsZ
  rw [List.getLast?_append]
  cases hl : l2.getLast? with
  | some c => rfl
  | none =>
    rw [List.getLast?_eq_none_iff] at hl
    exact absurd hl h

lemma endsZ_false_of_digits (l : List Char) (h : l.all isDigitC = true) :
    endsZ l = false := by
  unfold endsZ
  cases hl : l.getLast? with
  | none => rfl
  | some c =>
    rw [List.all_eq_true] at h
    exact digit_ne_Z c (h c (List.mem_of_mem_getLast? hl))

lemma endsZ_concat (l : List Char) : endsZ (l ++ ['Z']) = true := by
  unfold endsZ
  rw [List.getLast?_concat]
  rfl

lemma sliceD (y mo d : Nat) :
    (pad4 y ++ pad2 mo ++ pad2 d).take 4 = pad4 y ∧
      ((pad4 y ++ pad2 mo ++ pad2 d).drop 4).take 2 = pad2 mo ∧
      ((pad4 y ++ pad2 mo ++ pad2 d).drop 6).take 2 = pad2 d := by
  refine ⟨?_, ?_, ?_⟩
  · rw [List.append_assoc]
    rw [show (4 : Nat) = (pad4 y).length from rfl]
    exact List.take_left _ _
  · rw [List.append_assoc]
    rw [show (4 : Nat) = (pad4 y).length from rfl, List.drop_left]
    rw [show (2 : Nat) = (pad2 mo).length from rfl]
    exact List.take_left _ _
  · rw [show (6 : Nat) = (pad4 y ++ pad2 mo).length from rfl, List.drop_left]
    rw [show (2 : Nat) = (pad2 d).length from rfl]
    exact List.take_length _

lemma sliceT (hh mi s : Nat) :
    (pad2 hh ++ pad2 mi ++ pad2 s).take 2 = pad2 hh ∧
      ((pad2 hh ++ pad2 mi ++ pad2 s).drop 2).take 2 = pad2 mi ∧
      ((pad2 hh ++ pad2 mi ++ pad2 s).drop 4).take 2 = pad2 s ∧
      (pad2 hh ++ pad2 mi ++ pad2 s).length = 6 := by
  refine ⟨?_, ?_, ?_, rfl⟩
  · rw [List.append_assoc]
    rw [show (2 : Nat) = (pad2 hh).length from rfl]
    exact List.take_left _ _
  · rw [List.append_assoc]
    nth_rewrite 2 [show (2 : Nat) = (pad2 hh).length from rfl]
    rw [List.drop_left]
    rw [show (2 : Nat) = (pad2 mi).length from rfl]
    exact List.take_left _ _
  · rw [show (4 : Nat) = (pad2 hh ++ pad2 mi).length from rfl, List.drop_left]
    rw [show (2 : Nat) = (pad2 s).length from rfl]
    exact List.take_length _


lemma datetimeValid_zero (y mo d hh mi ss : Nat)
    (h : datetimeValid y mo d hh mi ss = true) : datetimeValid y mo d 0 0 0 = true := by
  simp only [datetimeValid, Bool.and_eq_true, decide_eq_true_eq] at h ⊢
  omega

lemma daysInMonth_le (y mo : Nat) : daysInMonth y mo ≤ 31 := by
  unfold daysInMonth
  split
  · split <;> norm_num
  · split <;> norm_num

/-- C9 amended: for every calendar-valid zero-padded timestamp, the local
date-time form parses to that JST wall-clock time, the date-only form
parses to JST midnight, and the UTC form with a trailing Z is converted
from UTC to JST — raising (escaping the try block) exactly when the
conversion overflows year 9999.  Totality holds by construction, but
strings outside the three documented forms do not all yield None
(see the counterexample). -/
theorem c9_datetime_forms (y mo d hh mi ss : Nat)
    (h : datetimeValid y mo d hh mi ss = true) :
    parse_ics_datetime (fmtLocal y mo d hh mi ss) =
        ParseOutcome.ok (some ⟨y, mo, d, hh, mi, ss⟩) ∧
      parse_ics_datetime (fmtDate y mo d) = ParseOutcome.ok (some ⟨y, mo, d, 0, 0, 0⟩) ∧
      parse_ics_datetime (fmtZulu y mo d hh mi ss) =
        (match utcToJst ⟨y, mo, d, hh, mi, ss⟩ with
          | some r => ParseOutcome.ok (some r)
          | none => ParseOutcome.exc) := by
  have hb := h
  simp only [datetimeValid, Bool.and_eq_true, decide_eq_true_eq] at hb
  obtain ⟨⟨⟨⟨⟨⟨⟨⟨hy1, hy2⟩, hm1⟩, hm2⟩, hd1⟩, hd2⟩, hhh⟩, hmi⟩, hss⟩ := hb
  have hy4 : y < 10000 := by omega
  have hm100 : mo < 100 := by omega
  have hdle := daysInMonth_le y mo
  have hdd : d < 100 := by omega
  have hh100 : hh < 100 := by omega
  have hmi100 : mi < 100 := by omega
  have hss100 : ss < 100 := by omega
  have hDdig : (pad4 y ++ pad2 mo ++ pad2 d).all isDigitC = true := by
    simp [List.all_append, pad4_digits, pad2_digits]
  have hTdig : (pad2 hh ++ pad2 mi ++ pad2 ss).all isDigitC = true := by
    simp [List.all_append, pad2_digits]
  -- slices and digit-value facts
  obtain ⟨hsD1, hsD2, hsD3⟩ := sliceD y mo d
  obtain ⟨hsT1, hsT2, hsT3, hsT4⟩ := sliceT hh mi ss
  -- the two try-block computations
  have hTeq : parseT (pad4 y ++ pad2 mo ++ pad2 d) (pad2 hh ++ pad2 mi ++ pad2 ss) =
      some (y, mo, d, hh, mi, ss) := by
    unfold parseT
    rw [hsD1, hsD2, hsD3, hsT1, hsT2, hsT3, hsT4]
    rw [pyIntDigits_pad4 y hy4, pyIntDigits_pad2 mo hm100, pyIntDigits_pad2 d hdd,
      pyIntDigits_pad2 hh hh100, pyIntDigits_pad2 mi hmi100, pyIntDigits_pad2 ss hss100]
    simp [h]
  have hDeq : parseD (pad4 y ++ pad2 mo ++ pad2 d) = some (y, mo, d, 0, 0, 0) := by
    unfold parseD
    rw [hsD1, hsD2, hsD3]
    rw [pyIntDigits_pad4 y hy4, pyIntDigits_pad2 mo hm100, pyIntDigits_pad2 d hdd]
    show (if datetimeValid y mo d 0 0 0 = true then some (y, mo, d, 0, 0, 0) else none) = _
    rw [if_pos (datetimeValid_zero y mo d hh mi ss h)]
  -- parseCore on the two shapes
  have hcoreT : parseCore ((pad4 y ++ pad2 mo ++ pad2 d) ++
      'T' :: (pad2 hh ++ pad2 mi ++ pad2 ss)) = some (y, mo, d, hh, mi, ss) := by
    have hT : hasChar ('T') ((pad4 y ++ pad2 mo ++ pad2 d) ++
        'T' :: (pad2 hh ++ pad2 mi ++ pad2 ss)) = true := by
      unfold hasChar
      rw [List.any_append]
      simp
    have hsp : splitFirst ('T') ((pad4 y ++ pad2 mo ++ pad2 d) ++
        'T' :: (pad2 hh ++ pad2 mi ++ pad2 ss)) =
        some (pad4 y ++ pad2 mo ++ pad2 d, pad2 hh ++ pad2 mi ++ pad2 ss) := by
      apply splitFirst_of_no_sep
      intro c hc
      exact digit_ne_T c (List.all_eq_true.mp hDdig c hc)
    unfold parseCore
    rw [hT, if_pos rfl, hsp]
    exact hTeq
  have hcoreD : parseCore (pad4 y ++ pad2 mo ++ pad2 d) = some (y, mo, d, 0, 0, 0) := by
    unfold parseCore
    rw [hasChar_false_of_digits _ hDdig, if_neg (by simp)]
    exact hDeq
  -- non-space facts
  have hnonsD : ∀ c ∈ pad4 y ++ pad2 mo ++ pad2 d, isSpacePy c = false := by
    intro c hc
    exact digit_not_space c (List.all_eq_true.mp hDdig c hc)
  have hnonsL : ∀ c ∈ (pad4 y ++ pad2 mo ++ pad2 d) ++
      'T' :: (pad2 hh ++ pad2 mi ++ pad2 ss), isSpacePy c = false := by
    intro c hc
    rw [List.mem_append] at hc
    rcases hc with hc | hc
    · exact hnonsD c hc
    · rw [List.mem_cons] at hc
      rcases hc with rfl | hc
      · decide
      · exact digit_not_space c (List.all_eq_true.mp hTdig c hc)
  have hnonsZ : ∀ c ∈ ((pad4 y ++ pad2 mo ++ pad2 d) ++
      'T' :: (pad2 hh ++ pad2 mi ++ pad2 ss)) ++ ['Z'], isSpacePy c = false := by
    intro c hc
    rw [List.mem_append] at hc
    rcases hc with hc | hc
    · exact hnonsL c hc
    · rw [List.mem_singleton] at hc
      subst hc
      decide
  -- emptiness facts
  have hneL : (pad4 y ++ pad2 mo ++ pad2 d) ++
      'T' :: (pad2 hh ++ pad2 mi ++ pad2 ss) ≠ [] := by
    intro heq
    have hlen := congrArg List.length heq
    simp at hlen
  have hneD : pad4 y ++ pad2 mo ++ pad2 d ≠ [] := by
    intro heq
    have hlen := congrArg List.length heq
    simp [pad4, pad2] at hlen
  have hneZ : ((pad4 y ++ pad2 mo ++ pad2 d) ++
      'T' :: (pad2 hh ++ pad2 mi ++ pad2 ss)) ++ ['Z'] ≠ [] := by
    intro heq
    have hlen := congrArg List.length heq
    simp at hlen
  -- endsZ facts
  have hzL : endsZ ((pad4 y ++ pad2 mo ++ pad2 d) ++
      'T' :: (pad2 hh ++ pad2 mi ++ pad2 ss)) = false := by
    rw [show ('T' :: (pad2 hh ++ pad2 mi ++ pad2 ss)) =
      ['T'] ++ (pad2 hh ++ pad2 mi ++ pad2 ss) from rfl]
    rw [← List.append_assoc]
    rw [endsZ_append _ _ (by simp [pad2])]
    exact endsZ_false_of_digits _ hTdig
  have hzD : endsZ (pad4 y ++ pad2 mo ++ pad2 d) = false :=
    endsZ_false_of_digits _ hDdig
  refine ⟨?_, ?_, ?_⟩
  · -- local form
    rw [show fmtLocal y mo d hh mi ss = String.mk ((pad4 y ++ pad2 mo ++ pad2 d) ++
      'T' :: (pad2 hh ++ pad2 mi ++ pad2 ss)) from by
        simp [fmtLocal, List.append_assoc]]
    show (if pyStripL ((pad4 y ++ pad2 mo ++ pad2 d) ++
        'T' :: (pad2 hh ++ pad2 mi ++ pad2 ss)) = [] then ParseOutcome.ok none
      else parseAfterStrip (pyStripL ((pad4 y ++ pad2 mo ++ pad2 d) ++
        'T' :: (pad2 hh ++ pad2 mi ++ pad2 ss)))) = _
    rw [pyStripL_eq_self _ hnonsL, if_neg hneL]
    unfold parseAfterStrip
    rw [hzL, if_neg (by simp), hcoreT]
  · -- date-only form
    rw [show fmtDate y mo d = String.mk (pad4 y ++ pad2 mo ++ pad2 d) from rfl]
    show (if pyStripL (pad4 y ++ pad2 mo ++ pad2 d) = [] then ParseOutcome.ok none
      else parseAfterStrip (pyStripL (pad4 y ++ pad2 mo ++ pad2 d))) = _
    rw [pyStripL_eq_self _ hnonsD, if_neg hneD]
    unfold parseAfterStrip
    rw [hzD, if_neg (by simp), hcoreD]
  · -- zulu form
    rw [show fmtZulu y mo d hh mi ss = String.mk (((pad4 y ++ pad2 mo ++ pad2 d) ++
      'T' :: (pad2 hh ++ pad2 mi ++ pad2 ss)) ++ ['Z']) from by
        simp [fmtZulu, List.append_assoc]]
    show (if pyStripL (((pad4 y ++ pad2 mo ++ pad2 d) ++
        'T' :: (pad2 hh ++ pad2 mi ++ pad2 ss)) ++ ['Z']) = [] then ParseOutcome.ok none
      else parseAfterStrip (pyStripL (((pad4 y ++ pad2 mo ++ pad2 d) ++
        'T' :: (pad2 hh ++ pad2 mi ++ pad2 ss)) ++ ['Z']))) = _
    rw [pyStripL_eq_self _ hnonsZ, if_neg hneZ]
    unfold parseAfterStrip
    rw [endsZ_concat, if_pos rfl, List.dropLast_concat, hcoreT]

/-- C9 witness: the amended theorem applied at 2025-12-07T23:30:00. -/
theorem c9_datetime_forms_witness :
    datetimeValid 2025 12 7 23 30 0 = true ∧
      (parse_ics_datetime (fmtLocal 2025 12 7 23 30 0) =
          ParseOutcome.ok (some ⟨2025, 12, 7, 23, 30, 0⟩) ∧
        parse_ics_datetime (fmtDate 2025 12 7) =
          ParseOutcome.ok (some ⟨2025, 12, 7, 0, 0, 0⟩) ∧
        parse_ics_datetime (fmtZulu 2025 12 7 23 30 0) =
          (match utcToJst ⟨2025, 12, 7, 23, 30, 0⟩ with
            | some r => ParseOutcome.ok (some r)
            | none => ParseOutcome.exc)) :=
  ⟨by decide, c9_datetime_forms 2025 12 7 23 30 0 (by decide)⟩

lemma buildItems_cons (now : PyDT) (ev : RawEvent) (evs : List RawEvent) :
    buildItems now (ev :: evs) =
      if ev.uid = "" then buildItems now evs
      else
        match build_item now ev with
        | .error e => .error e
        | .ok it =>
          match buildItems now evs with
          | .error e => .error e
          | .ok l => .ok (it :: l) := rfl

/-- C1 amended: an event with an empty UID is dropped individually and the
batch continues, but an event with a UID and no start timestamp makes
`build_item` raise with nothing catching it: the batch loop succeeds exactly
when every UID-bearing event has a start, and the process exit status is 0
exactly in that case (1 — not 0 — when the uncaught ValueError aborts the
run). -/
theorem c1_missing_start_aborts (now : PyDT) (evs : List RawEvent) (ev0 : RawEvent) :
    (ev0.uid = "" → buildItems now (ev0 :: evs) = buildItems now evs) ∧
      ((∃ l, buildItems now evs = .ok l) ↔
        ∀ ev ∈ evs, ev.uid = "" ∨ ev.dtstart.isSome = true) ∧
      (syncExitCode now evs = 0 ↔ ∃ l, buildItems now evs = .ok l) := by
  refine ⟨?_, ?_, ?_⟩
  · intro h
    rw [buildItems_cons, if_pos h]
  · induction evs with
    | nil => simp [buildItems]
    | cons ev rest ih =>
      rw [buildItems_cons]
      by_cases hu : ev.uid = ""
      · rw [if_pos hu]
        rw [ih]
        constructor
        · intro h e he
          rw [List.mem_cons] at he
          rcases he with rfl | he
          · exact Or.inl hu
          · exact h e he
        · intro h e he
          exact h e (List.mem_cons_of_mem _ he)
      · rw [if_neg hu]
        cases hst : ev.dtstart with
        | none =>
          rw [build_item_err now ev hst]
          constructor
          · rintro ⟨l, hl⟩
            cases hl
          · intro h
            rcases h ev (by simp) with h1 | h1
            · exact absurd h1 hu
            · rw [hst] at h1
              cases h1
        | some dt =>
          obtain ⟨it, hit⟩ := build_item_ok_ex now ev dt hst
          rw [hit]
          cases hrest : buildItems now rest with
          | error e =>
            constructor
            · rintro ⟨l, hl⟩
              cases hl
            · intro h
              have : ∃ l, buildItems now rest = .ok l := by
                rw [ih]
                intro e he
                exact h e (List.mem_cons_of_mem _ he)
              rw [hrest] at this
              obtain ⟨l, hl⟩ := this
              cases hl
          | ok l =>
            constructor
            · intro _
              intro e he
              rw [List.mem_cons] at he
              rcases he with rfl | he
              · rw [hst]
                exact Or.inr rfl
              · have : ∃ l2, buildItems now rest = .ok l2 := ⟨l, hrest⟩
                rw [ih] at this
                exact this e he
            · intro _
              exact ⟨it :: l, rfl⟩
  · cases hb : buildItems now evs with
    | error e =>
      unfold syncExitCode
      rw [hb]
      constructor
      · intro h
        cases h
      · rintro ⟨l, hl⟩
        cases hl
    | ok l =>
      unfold syncExitCode
      rw [hb]
      exact ⟨fun _ => ⟨l, rfl⟩, fun _ => rfl⟩

/-- C2 amended: a parsed label that is exactly 予定 or 結果 is kept as the
statusKind regardless of score or timestamps; any other label value falls
back to inference from the start timestamp alone — 予定 when the start is
still in the future relative to now, 結果 otherwise.  The resolved score and
the end timestamp play no role in the inference. -/
theorem c2_status_kind_resolution (now : PyDT) (ev : RawEvent) (st : PyDT) (it : Item)
    (hst : ev.dtstart = some st) (hok : build_item now ev = .ok it) :
    (((parse_desc ev.description).kind = "予定" ∨ (parse_desc ev.description).kind = "結果") →
        it.kind = (parse_desc ev.description).kind) ∧
      (¬((parse_desc ev.description).kind = "予定" ∨
          (parse_desc ev.description).kind = "結果") →
        it.kind = if dtLtB now st then "予定" else "結果") := by
  unfold build_item at hok
  rw [hst] at hok
  injection hok with h2
  subst h2
  constructor
  · intro hk
    rw [mkItem_kind, if_pos hk]
  · intro hk
    rw [mkItem_kind, if_neg hk]

lemma foldl_lookup_none (uid : String) (pages : List Page) :
    ∀ acc : Option Page,
      (pages.foldl
          (fun acc pg => if page_uid pg ≠ "" ∧ page_uid pg = uid then some pg else acc)
          acc = none ↔
        acc = none ∧ ∀ pg ∈ pages, ¬(page_uid pg ≠ "" ∧ page_uid pg = uid)) := by
  induction pages with
  | nil => intro acc; simp
  | cons p ps ih =>
    intro acc
    rw [List.foldl_cons]
    by_cases hp : page_uid p ≠ "" ∧ page_uid p = uid
    · rw [if_pos hp, ih (some p)]
      constructor
      · rintro ⟨h1, _⟩
        cases h1
      · rintro ⟨_, hall⟩
        exact absurd hp (hall p (by simp))
    · rw [if_neg hp, ih acc]
      constructor
      · rintro ⟨h1, h2⟩
        refine ⟨h1, ?_⟩
        intro pg hpg
        rw [List.mem_cons] at hpg
        rcases hpg with rfl | hpg
        · exact hp
        · exact h2 pg hpg
      · rintro ⟨h1, h2⟩
        exact ⟨h1, fun pg hpg => h2 pg (List.mem_cons_of_mem _ hpg)⟩

lemma foldl_lookup_some (uid : String) (pages : List Page) :
    ∀ acc : Option Page, ∀ pg : Page,
      pages.foldl
          (fun acc pg => if page_uid pg ≠ "" ∧ page_uid pg = uid then some pg else acc)
          acc = some pg →
        (pg ∈ pages ∧ page_uid pg = uid) ∨ acc = some pg := by
  induction pages with
  | nil => intro acc pg h; exact Or.inr h
  | cons p ps ih =>
    intro acc pg h
    rw [List.foldl_cons] at h
    by_cases hp : page_uid p ≠ "" ∧ page_uid p = uid
    · rw [if_pos hp] at h
      rcases ih (some p) pg h with ⟨hmem, hu⟩ | heq
      · exact Or.inl ⟨List.mem_cons_of_mem _ hmem, hu⟩
      · injection heq with heq
        subst heq
        exact Or.inl ⟨by simp, hp.2⟩
    · rw [if_neg hp] at h
      rcases ih acc pg h with ⟨hmem, hu⟩ | heq
      · exact Or.inl ⟨List.mem_cons_of_mem _ hmem, hu⟩
      · exact Or.inr heq

lemma by_uid_lookup_none_iff (pages : List Page) (uid : String) (hu : uid ≠ "") :
    by_uid_lookup pages uid = none ↔ ∀ pg ∈ pages, page_uid pg ≠ uid := by
  unfold by_uid_lookup
  rw [foldl_lookup_none uid pages none]
  constructor
  · rintro ⟨_, h⟩ pg hpg heq
    exact h pg hpg ⟨by rw [heq]; exact hu, heq⟩
  · intro h
    refine ⟨rfl, ?_⟩
    rintro pg hpg ⟨_, heq⟩
    exact h pg hpg heq

lemma by_uid_lookup_some_uid (pages : List Page) (uid : String) (pg : Page)
    (h : by_uid_lookup pages uid = some pg) : pg ∈ pages ∧ page_uid pg = uid := by
  unfold by_uid_lookup at h
  rcases foldl_lookup_some uid pages none pg h with hok | habs
  · exact hok
  · cases habs

lemma classify_none (pages : List Page) (it : Item)
    (h : by_uid_lookup pages it.uid = none) : classify pages it = .create := by
  unfold classify
  rw [h]

lemma classify_some (pages : List Page) (it : Item) (pg0 : Page)
    (h : by_uid_lookup pages it.uid = some pg0) :
    classify pages it = if page_fp pg0 = it.fingerprint then .skip else .update := by
  unfold classify
  rw [h]

lemma writeOf_none (pages : List Page) (it : Item)
    (h : by_uid_lookup pages it.uid = none) : writeOf pages it = some (.createW it.uid) := by
  unfold writeOf
  rw [h]

lemma writeOf_some (pages : List Page) (it : Item) (pg0 : Page)
    (h : by_uid_lookup pages it.uid = some pg0) :
    writeOf pages it =
      if page_fp pg0 = it.fingerprint then none else some (.updateW pg0.pageId it.uid) := by
  unfold writeOf
  rw [h]

/-- C3: for every resolved record, the loop classifies Create exactly when
no remote page carries its uid, Update exactly when the matched page's
stored fingerprint differs (in particular whenever the fingerprint property
is absent), Skip exactly when the stored fingerprint equals the record's,
and a write is issued exactly for the non-Skip outcomes. -/
theorem c3_reconciliation (now : PyDT) (ev : RawEvent) (it : Item) (pages : List Page)
    (hok : build_item now ev = .ok it) (hu : it.uid ≠ "") :
    (classify pages it = .create ↔ ∀ pg ∈ pages, page_uid pg ≠ it.uid) ∧
      (classify pages it = .update ↔ ∃ pg, by_uid_lookup pages it.uid = some pg ∧
        page_fp pg ≠ it.fingerprint) ∧
      (classify pages it = .skip ↔ ∃ pg, by_uid_lookup pages it.uid = some pg ∧
        page_fp pg = it.fingerprint) ∧
      (∀ pg, by_uid_lookup pages it.uid = some pg → pg.fpProp = none →
        classify pages it = .update) ∧
      ((writeOf pages it).isSome = true ↔ classify pages it ≠ .skip) := by
  have hf : it.fingerprint ≠ "" := by
    rw [build_item_fp now ev it hok]
    exact sha1_ne_empty _
  cases hlk : by_uid_lookup pages it.uid with
  | none =>
    have hnone := (by_uid_lookup_none_iff pages it.uid hu).mp hlk
    rw [classify_none pages it hlk, writeOf_none pages it hlk]
    refine ⟨⟨fun _ => hnone, fun _ => rfl⟩, ?_, ?_, ?_, ?_⟩
    · constructor
      · intro h
        cases h
      · rintro ⟨pg, hpg, _⟩
        cases hpg
    · constructor
      · intro h
        cases h
      · rintro ⟨pg, hpg, _⟩
        cases hpg
    · intro pg hpg
      cases hpg
    · simp
  | some pg0 =>
    obtain ⟨hmem, hpuid⟩ := by_uid_lookup_some_uid pages it.uid pg0 hlk
    rw [classify_some pages it pg0 hlk, writeOf_some pages it pg0 hlk]
    by_cases hfp : page_fp pg0 = it.fingerprint
    · rw [if_pos hfp, if_pos hfp]
      refine ⟨?_, ?_, ?_, ?_, ?_⟩
      · constructor
        · intro h
          cases h
        · intro hall
          exact absurd hpuid (hall pg0 hmem)
      · constructor
        · intro h
          cases h
        · rintro ⟨pg, hpg, hne⟩
          injection hpg with hpg
          subst hpg
          exact absurd hfp hne
      · exact ⟨fun _ => ⟨pg0, rfl, hfp⟩, fun _ => rfl⟩
      · intro pg hpg hnone
        injection hpg with hpg
        subst hpg
        have hempty : page_fp pg0 = "" := by
          unfold page_fp
          rw [hnone]
        rw [hempty] at hfp
        exact absurd hfp.symm hf
      · simp
    · rw [if_neg hfp, if_neg hfp]
      refine ⟨?_, ?_, ?_, ?_, ?_⟩
      · constructor
        · intro h
          cases h
        · intro hall
          exact absurd hpuid (hall pg0 hmem)
      · exact ⟨fun _ => ⟨pg0, rfl, hfp⟩, fun _ => rfl⟩
      · constructor
        · intro h
          cases h
        · rintro ⟨pg, hpg, heq⟩
          injection hpg with hpg
          subst hpg
          exact absurd heq hfp
      · intro pg hpg hnone
        rfl
      · simp

/-- C10: every resolved record's fingerprint is a 40-character SHA-1 hex
digest, hence never empty, so a remote row whose stored fingerprint is
empty or absent can never compare equal and is always classified Update. -/
theorem c10_fingerprint_nonempty (now : PyDT) (ev : RawEvent) (it : Item)
    (hok : build_item now ev = .ok it) (pages : List Page) (pg : Page)
    (hlk : by_uid_lookup pages it.uid = some pg) (hfp : page_fp pg = "") :
    it.fingerprint.length = 40 ∧ it.fingerprint ≠ "" ∧ classify pages it = .update := by
  have hsha := build_item_fp now ev it hok
  have hlen : it.fingerprint.length = 40 := by
    rw [hsha]
    exact sha1_length _
  have hne : it.fingerprint ≠ "" := by
    rw [hsha]
    exact sha1_ne_empty _
  refine ⟨hlen, hne, ?_⟩
  rw [classify_some pages it pg hlk, if_neg]
  intro heq
  rw [hfp] at heq
  exact hne heq.symm

def evNoUid : RawEvent := ⟨"", "s", "", "", some ⟨2025, 1, 1, 0, 0, 0⟩, none⟩

/-- C1 witness: the amended theorem applied to a concrete batch. -/
theorem c1_missing_start_aborts_witness :
    (evNoUid.uid = "" → buildItems nowC (evNoUid :: [evGood]) = buildItems nowC [evGood]) ∧
      ((∃ l, buildItems nowC [evGood] = .ok l) ↔
        ∀ ev ∈ [evGood], ev.uid = "" ∨ ev.dtstart.isSome = true) ∧
      (syncExitCode nowC [evGood] = 0 ↔ ∃ l, buildItems nowC [evGood] = .ok l) :=
  c1_missing_start_aborts nowC [evGood] evNoUid

/-- C2 witness: the amended theorem applied to the concrete score event. -/
theorem c2_status_kind_resolution_witness :
    (((parse_desc evScore.description).kind = "予定" ∨
        (parse_desc evScore.description).kind = "結果") →
      (itemOf (build_item nowC evScore)).kind = (parse_desc evScore.description).kind) ∧
      (¬((parse_desc evScore.description).kind = "予定" ∨
          (parse_desc evScore.description).kind = "結果") →
        (itemOf (build_item nowC evScore)).kind =
          if dtLtB nowC ⟨2025, 12, 1, 12, 0, 0⟩ then "予定" else "結果") :=
  c2_status_kind_resolution nowC evScore ⟨2025, 12, 1, 12, 0, 0⟩
    (itemOf (build_item nowC evScore)) rfl rfl

def pgOld : Page := ⟨"pid1", some ("ug"), some ("oldfp")⟩

/-- C3 witness: the reconciliation theorem applied to a concrete record and
remote page set. -/
theorem c3_reconciliation_witness :
    (classify [pgOld] (itemOf (build_item nowC evGood)) = .create ↔
        ∀ pg ∈ [pgOld], page_uid pg ≠ (itemOf (build_item nowC evGood)).uid) ∧
      (classify [pgOld] (itemOf (build_item nowC evGood)) = .update ↔
        ∃ pg, by_uid_lookup [pgOld] (itemOf (build_item nowC evGood)).uid = some pg ∧
          page_fp pg ≠ (itemOf (build_item nowC evGood)).fingerprint) ∧
      (classify [pgOld] (itemOf (build_item nowC evGood)) = .skip ↔
        ∃ pg, by_uid_lookup [pgOld] (itemOf (build_item nowC evGood)).uid = some pg ∧
          page_fp pg = (itemOf (build_item nowC evGood)).fingerprint) ∧
      (∀ pg, by_uid_lookup [pgOld] (itemOf (build_item nowC evGood)).uid = some pg →
        pg.fpProp = none → classify [pgOld] (itemOf (build_item nowC evGood)) = .update) ∧
      ((writeOf [pgOld] (itemOf (build_item nowC evGood))).isSome = true ↔
        classify [pgOld] (itemOf (build_item nowC evGood)) ≠ .skip) :=
  c3_reconciliation nowC evGood (itemOf (build_item nowC evGood)) [pgOld] rfl (by decide)

def pgNoFp : Page := ⟨"pid2", some ("ug"), none⟩

/-- C10 witness: the fingerprint-shape theorem applied to a concrete record
and a remote page with an absent fingerprint. -/
theorem c10_fingerprint_nonempty_witness :
    (itemOf (build_item nowC evGood)).fingerprint.length = 40 ∧
      (itemOf (build_item nowC evGood)).fingerprint ≠ "" ∧
      classify [pgNoFp] (itemOf (build_item nowC evGood)) = .update :=
  c10_fingerprint_nonempty nowC evGood (itemOf (build_item nowC evGood)) rfl [pgNoFp]
    pgNoFp (by decide) rfl

/-- C5 amended: fingerprints are deterministic — byte-identical events at a
fixed now hash identically, and more generally records whose pipe-joined
visible-field strings coincide share a fingerprint (which is how two
records with different visible fields can collide). -/
theorem c5_fingerprint_determinism (now : PyDT) (ev1 ev2 : RawEvent) (it1 it2 : Item)
    (h1 : build_item now ev1 = .ok it1) (h2 : build_item now ev2 = .ok it2) :
    (ev1 = ev2 → it1.fingerprint = it2.fingerprint) ∧
      (fpInputOf it1 = fpInputOf it2 → it1.fingerprint = it2.fingerprint) := by
  constructor
  · intro he
    subst he
    rw [h1] at h2
    injection h2 with h2
    rw [h2]
  · intro he
    rw [build_item_fp now ev1 it1 h1, build_item_fp now ev2 it2 h2, he]

/-- C5 witness: the determinism theorem applied at a concrete event. -/
theorem c5_fingerprint_determinism_witness :
    (evX = evX → (itemOf (build_item nowC evX)).fingerprint =
        (itemOf (build_item nowC evX)).fingerprint) ∧
      (fpInputOf (itemOf (build_item nowC evX)) = fpInputOf (itemOf (build_item nowC evX)) →
        (itemOf (build_item nowC evX)).fingerprint =
          (itemOf (build_item nowC evX)).fingerprint) :=
  c5_fingerprint_determinism nowC evX evX (itemOf (build_item nowC evX))
    (itemOf (build_item nowC evX)) rfl rfl

/-- The twelve property keys `build_notion_props` always emits. -/
def coreKeys : List String :=
  ["カード", "開始", "終了", "大会", "節／ラウンド", "会場", "区分", "確度", "更新日",
    "UID", "出典", "fingerprint"]

lemma optTail_sub (schema : List String) :
    ∀ k ∈ ((if ("ホーム" : String) ∈ schema then ["ホーム"] else []) ++
      ((if ("アウェイ" : String) ∈ schema then ["アウェイ"] else []) ++
        (if ("スコア" : String) ∈ schema then ["スコア"] else []))), k ∈ schema := by
  intro k hk
  rw [List.mem_append, List.mem_append] at hk
  rcases hk with hk | hk | hk
  · by_cases h : ("ホーム" : String) ∈ schema
    · rw [if_pos h] at hk
      rw [List.mem_singleton] at hk
      subst hk
      exact h
    · rw [if_neg h] at hk
      cases hk
  · by_cases h : ("アウェイ" : String) ∈ schema
    · rw [if_pos h] at hk
      rw [List.mem_singleton] at hk
      subst hk
      exact h
    · rw [if_neg h] at hk
      cases hk
  · by_cases h : ("スコア" : String) ∈ schema
    · rw [if_pos h] at hk
      rw [List.mem_singleton] at hk
      subst hk
      exact h
    · rw [if_neg h] at hk
      cases hk

lemma propKeys_eq (now : PyDT) (item : Item) (schema : List String) :
    propKeys (build_notion_props now item schema) =
      coreKeys ++ ((if ("ホーム" : String) ∈ schema then ["ホーム"] else []) ++
        ((if ("アウェイ" : String) ∈ schema then ["アウェイ"] else []) ++
          (if ("スコア" : String) ∈ schema then ["スコア"] else []))) := by
  unfold propKeys build_notion_props coreKeys
  by_cases hh : ("ホーム" : String) ∈ schema <;>
    by_cases ha : ("アウェイ" : String) ∈ schema <;>
    by_cases hs : ("スコア" : String) ∈ schema <;>
    simp [hh, ha, hs]

/-- C4 counterexample: with an empty external schema the payload still
contains the core field 大会 — core fields are sent unconditionally, so a
field name absent from the schema is not always omitted. -/
theorem c4_counterexample :
    ("大会" ∈ propKeys (build_notion_props nowC (itemOf (build_item nowC evGood)) [])) ∧
      ("大会" ∉ ([] : List String)) := by
  refine ⟨by decide, by decide⟩

/-- C4 amended: only the optional columns ホーム / アウェイ / スコア are
schema-gated — each is present in the payload exactly when the schema has
it, and when present the emitted entry carries the record's value (so a
schema lacking スコア gets no score entry even for a non-empty score); the
twelve core keys are always emitted regardless of the schema. -/
theorem c4_schema_projection (now : PyDT) (item : Item) (schema : List String) :
    (∀ k ∈ propKeys (build_notion_props now item schema), k ∈ coreKeys ∨ k ∈ schema) ∧
      ("スコア" ∈ propKeys (build_notion_props now item schema) ↔ ("スコア" : String) ∈ schema) ∧
      ("ホーム" ∈ propKeys (build_notion_props now item schema) ↔ ("ホーム" : String) ∈ schema) ∧
      ("アウェイ" ∈ propKeys (build_notion_props now item schema) ↔ ("アウェイ" : String) ∈ schema) ∧
      (∀ k ∈ coreKeys, k ∈ propKeys (build_notion_props now item schema)) ∧
      (("スコア" : String) ∈ schema →
        ("スコア", safe_rich_text item.score) ∈ build_notion_props now item schema) := by
  refine ⟨?_, ?_, ?_, ?_, ?_, ?_⟩
  · intro k hk
    rw [propKeys_eq] at hk
    rcases List.mem_append.mp hk with hc | ho
    · exact Or.inl hc
    · exact Or.inr (optTail_sub schema k ho)
  · rw [propKeys_eq]
    constructor
    · intro hmem
      rcases List.mem_append.mp hmem with hc | ho
      · exact absurd hc (by decide)
      · exact optTail_sub schema _ ho
    · intro h'
      refine List.mem_append.mpr (Or.inr (List.mem_append.mpr (Or.inr
        (List.mem_append.mpr (Or.inr ?_)))))
      rw [if_pos h']
      simp
  · rw [propKeys_eq]
    constructor
    · intro hmem
      rcases List.mem_append.mp hmem with hc | ho
      · exact absurd hc (by decide)
      · exact optTail_sub schema _ ho
    · intro h'
      refine List.mem_append.mpr (Or.inr (List.mem_append.mpr (Or.inl ?_)))
      rw [if_pos h']
      simp
  · rw [propKeys_eq]
    constructor
    · intro hmem
      rcases List.mem_append.mp hmem with hc | ho
      · exact absurd hc (by decide)
      · exact optTail_sub schema _ ho
    · intro h'
      refine List.mem_append.mpr (Or.inr (List.mem_append.mpr (Or.inr
        (List.mem_append.mpr (Or.inl ?_)))))
      rw [if_pos h']
      simp
  · intro k hk
    rw [propKeys_eq]
    exact List.mem_append.mpr (Or.inl hk)
  · intro hs
    unfold build_notion_props
    refine List.mem_append.mpr (Or.inr ?_)
    rw [if_pos hs]
    simp

/-- C4 witness: the projection theorem applied at a concrete record and a
schema lacking the score column. -/
theorem c4_schema_projection_witness :
    (∀ k ∈ propKeys (build_notion_props nowC (itemOf (build_item nowC evGood)) ["ホーム"]),
        k ∈ coreKeys ∨ k ∈ ["ホーム"]) ∧
      ("スコア" ∈ propKeys (build_notion_props nowC (itemOf (build_item nowC evGood))
          ["ホーム"]) ↔ ("スコア" : String) ∈ ["ホーム"]) ∧
      ("ホーム" ∈ propKeys (build_notion_props nowC (itemOf (build_item nowC evGood))
          ["ホーム"]) ↔ ("ホーム" : String) ∈ ["ホーム"]) ∧
      ("アウェイ" ∈ propKeys (build_notion_props nowC (itemOf (build_item nowC evGood))
          ["ホーム"]) ↔ ("アウェイ" : String) ∈ ["ホーム"]) ∧
      (∀ k ∈ coreKeys, k ∈ propKeys (build_notion_props nowC
        (itemOf (build_item nowC evGood)) ["ホーム"])) ∧
      (("スコア" : String) ∈ ["ホーム"] →
        ("スコア", safe_rich_text (itemOf (build_item nowC evGood)).score) ∈
          build_notion_props nowC (itemOf (build_item nowC evGood)) ["ホーム"]) :=
  c4_schema_projection nowC (itemOf (build_item nowC evGood)) ["ホーム"]

/-! ## Description-line lemmas (towards C6 and C8) -/

/-- A description value containing no newline, carriage return or
backslash, so the escape normalizations of `parse_desc` are no-ops and it
stays a single line. -/
def cleanStr (v : String) : Prop := ∀ ch ∈ v.data, ch ≠ '\n' ∧ ch ≠ '\r' ∧ ch ≠ '\\'

instance (v : String) : Decidable (cleanStr v) := by
  unfold cleanStr
  infer_instance

lemma replace1_no_op (a : Char) (rep l) (h : a ∉ l) : replace1 a rep l = l := by
  induction l with
  | nil => rfl
  | cons c cs ih =>
    have hca : (c == a) = false := by
      rw [beq_eq_false_iff_ne]
      intro he
      exact h (he ▸ List.mem_cons_self c cs)
    rw [replace1, hca]
    simp only [Bool.false_eq_true, if_false]
    rw [ih (fun hm => h (List.mem_cons_of_mem _ hm))]

lemma replace2_no_op (a b : Char) (rep l) (h : a ∉ l) : replace2 a b rep l = l := by
  induction l with
  | nil => rfl
  | cons c cs ih =>
    have hca : (c == a) = false := by
      rw [beq_eq_false_iff_ne]
      intro he
      exact h (he ▸ List.mem_cons_self c cs)
    have ih2 := ih (fun hm => h (List.mem_cons_of_mem _ hm))
    cases cs with
    | nil => rfl
    | cons c' cs' =>
      rw [replace2, hca]
      simp only [Bool.false_and, Bool.false_eq_true, if_false]
      rw [ih2]

lemma splitNl_single (l : List Char) (h : '\n' ∉ l) : splitNl l = [l] := by
  induction l with
  | nil => rfl
  | cons c cs ih =>
    have hc : c ≠ '\n' := by
      intro he
      exact h (he ▸ List.mem_cons_self c cs)
    have ih2 := ih (fun hm => h (List.mem_cons_of_mem _ hm))
    unfold splitNl at ih2 ⊢
    rw [List.foldr_cons, ih2]
    simp [hc]

lemma rstripL_keep (p : List Char) (acc : List Char) (hacc : acc ≠ []) :
    p.foldr (fun c a => if a = [] && isSpacePy c then [] else c :: a) acc = p ++ acc := by
  induction p with
  | nil => rfl
  | cons c cs ih =>
    rw [List.foldr_cons, ih]
    have hne : (cs ++ acc = []) = False := by
      simp [hacc]
    simp [hne]

lemma rstripL_append (p v : List Char) (hp : rstripL p = p) :
    rstripL (p ++ v) = p ++ rstripL v := by
  unfold rstripL
  rw [List.foldr_append]
  cases hrv : (v.foldr (fun c a => if a = [] && isSpacePy c then [] else c :: a) []) with
  | nil =>
    rw [List.append_nil]
    exact hp
  | cons x xs =>
    exact rstripL_keep p (x :: xs) (by simp)

lemma rstripL_cons (c : Char) (cs : List Char) :
    rstripL (c :: cs) =
      if rstripL cs = [] && isSpacePy c then [] else c :: rstripL cs := rfl

lemma rstripL_nil : rstripL [] = [] := rfl

lemma rstripL_idem (l : List Char) : rstripL (rstripL l) = rstripL l := by
  induction l with
  | nil => rfl
  | cons c cs ih =>
    rw [rstripL_cons c cs]
    by_cases hr : rstripL cs = []
    · rw [hr]
      by_cases hsp : isSpacePy c = true
      · simp [hsp]
        try rfl
      · simp [hsp]
        simp [rstripL_cons, rstripL_nil, hsp]
    · have hd : decide (rstripL cs = []) = false := by simp [hr]
      rw [hd]
      simp only [Bool.false_and, Bool.false_eq_true, if_false]
      rw [rstripL_cons, ih, hd]
      simp

lemma pyStripL_rstripL (v : List Char) : pyStripL (rstripL v) = pyStripL v := by
  unfold pyStripL
  rw [rstripL_idem]

lemma lstripL_cons_nonspace (c : Char) (cs : List Char) (h : isSpacePy c = false) :
    lstripL (c :: cs) = c :: cs := by
  simp [lstripL, List.dropWhile_cons, h]

lemma pyStripL_label (c : Char) (cs v : List Char) (hc : isSpacePy c = false)
    (hp : rstripL (c :: cs) = c :: cs) :
    pyStripL ((c :: cs) ++ v) = (c :: cs) ++ rstripL v := by
  unfold pyStripL
  rw [rstripL_append (c :: cs) v hp]
  rw [List.cons_append]
  rw [lstripL_cons_nonspace c _ hc]

lemma descLines_single (c : Char) (cs : List Char) (v : String)
    (hc : isSpacePy c = false) (hp : rstripL (c :: cs) = c :: cs)
    (hlab : ∀ ch ∈ c :: cs, ch ≠ '\n' ∧ ch ≠ '\r' ∧ ch ≠ '\\')
    (hv : cleanStr v) :
    descLines (String.mk ((c :: cs) ++ v.data)) = [(c :: cs) ++ rstripL v.data] := by
  have hall : ∀ ch ∈ (c :: cs) ++ v.data, ch ≠ '\n' ∧ ch ≠ '\r' ∧ ch ≠ '\\' := by
    intro ch hch
    rcases List.mem_append.mp hch with h | h
    · exact hlab ch h
    · exact hv ch h
  have hnn : '\n' ∉ (c :: cs) ++ v.data := fun hm => (hall _ hm).1 rfl
  have hnr : '\r' ∉ (c :: cs) ++ v.data := fun hm => (hall _ hm).2.1 rfl
  have hnb : '\\' ∉ (c :: cs) ++ v.data := fun hm => (hall _ hm).2.2 rfl
  unfold descLines normTextL
  rw [data_mk]
  rw [replace2_no_op _ _ _ _ hnr, replace1_no_op _ _ _ hnr, replace2_no_op _ _ _ _ hnb]
  rw [splitNl_single _ hnn]
  rw [List.map_cons, List.map_nil]
  rw [pyStripL_label c cs v.data hc hp]
  rw [List.filter_cons]
  simp

lemma descStep_shubetsu (st : Parsed × String) (w : List Char) :
    descStep st (('種' :: ("別：").data) ++ w) =
      ({ st.1 with ptype := String.mk (pyStripL w) }, st.2) := rfl

lemma descStep_taikai (st : Parsed × String) (w : List Char) :
    descStep st (('大' :: ("会：").data) ++ w) =
      ({ st.1 with tournament := String.mk (pyStripL w) }, st.2) := rfl

lemma descStep_round (st : Parsed × String) (w : List Char) :
    descStep st (('ラ' :: ("ウンド：").data) ++ w) =
      ({ st.1 with round := String.mk (pyStripL w) }, st.2) := rfl

lemma descStep_setsu_full (st : Parsed × String) (w : List Char) :
    descStep st (('節' :: ("／ラウンド：").data) ++ w) =
      ({ st.1 with round := String.mk (pyStripL w) }, st.2) := rfl

lemma descStep_setsu_half (st : Parsed × String) (w : List Char) :
    descStep st (('節' :: ("/ラウンド：").data) ++ w) =
      ({ st.1 with round := String.mk (pyStripL w) }, st.2) := rfl

lemma descStep_kubun (st : Parsed × String) (w : List Char) :
    descStep st (('区' :: ("分：").data) ++ w) =
      (if String.mk (pyStripL w) = "予定" ∨ String.mk (pyStripL w) = "結果"
        then ({ st.1 with kind := String.mk (pyStripL w) }, st.2)
        else (st.1, String.mk (pyStripL w))) := rfl

lemma descStep_kakudo (st : Parsed × String) (w : List Char) :
    descStep st (('確' :: ("度：").data) ++ w) =
      ({ st.1 with certainty := String.mk (pyStripL w) }, st.2) := rfl

lemma descStep_shutten (st : Parsed × String) (w : List Char) :
    descStep st (('出' :: ("典：").data) ++ w) =
      ({ st.1 with source := String.mk (pyStripL w) }, st.2) := rfl

lemma descStep_sukoa (st : Parsed × String) (w : List Char) :
    descStep st (('ス' :: ("コア：").data) ++ w) =
      ({ st.1 with score := String.mk (pyStripL w) }, st.2) := rfl

lemma descStep_taisen (st : Parsed × String) (w : List Char) :
    descStep st (('対' :: ("戦：").data) ++ w) =
      ({ st.1 with matchVal := String.mk (pyStripL w) }, st.2) := rfl

lemma descStep_homeLbl (st : Parsed × String) (w : List Char) :
    descStep st (('ホ' :: ("ーム：").data) ++ w) =
      ({ st.1 with home := String.mk (pyStripL w) }, st.2) := rfl

lemma descStep_awayLbl (st : Parsed × String) (w : List Char) :
    descStep st (('ア' :: ("ウェイ：").data) ++ w) =
      ({ st.1 with away := String.mk (pyStripL w) }, st.2) := rfl

lemma descStep_taikai_half (st : Parsed × String) (w : List Char) :
    descStep st (('大' :: ("会:").data) ++ w) = st := rfl

lemma descStep_kubun_half (st : Parsed × String) (w : List Char) :
    descStep st (('区' :: ("分:").data) ++ w) = st := rfl

lemma mergeMatch_matchVal (out : Parsed) : (mergeMatch out).matchVal = out.matchVal := by
  unfold mergeMatch mergeAway mergeHome
  split_ifs <;> rfl

lemma parse_desc_shubetsu (v : String) (hv : cleanStr v) :
    parse_desc ("種別：" ++ v) = { emptyParsed with ptype := pyStripS v } := by
  rw [show ("種別：" ++ v) = String.mk (('種' :: ("別：").data) ++ v.data) from rfl]
  unfold parse_desc
  rw [descLines_single '種' (("別：").data) v (by decide) (by decide) (by decide) hv]
  rw [List.foldl_cons, List.foldl_nil, descStep_shubetsu, pyStripL_rstripL]
  rfl

lemma parse_desc_taikai (v : String) (hv : cleanStr v) :
    parse_desc ("大会：" ++ v) = { emptyParsed with tournament := pyStripS v } := by
  rw [show ("大会：" ++ v) = String.mk (('大' :: ("会：").data) ++ v.data) from rfl]
  unfold parse_desc
  rw [descLines_single '大' (("会：").data) v (by decide) (by decide) (by decide) hv]
  rw [List.foldl_cons, List.foldl_nil, descStep_taikai, pyStripL_rstripL]
  rfl

lemma parse_desc_round (v : String) (hv : cleanStr v) :
    parse_desc ("ラウンド：" ++ v) = { emptyParsed with round := pyStripS v } := by
  rw [show ("ラウンド：" ++ v) = String.mk (('ラ' :: ("ウンド：").data) ++ v.data) from rfl]
  unfold parse_desc
  rw [descLines_single 'ラ' (("ウンド：").data) v (by decide) (by decide) (by decide) hv]
  rw [List.foldl_cons, List.foldl_nil, descStep_round, pyStripL_rstripL]
  unfold descMerge
  rw [if_neg (by
    rintro ⟨_, hne⟩
    exact hne rfl)]
  rfl

lemma parse_desc_setsu_full (v : String) (hv : cleanStr v) :
    parse_desc ("節／ラウンド：" ++ v) = { emptyParsed with round := pyStripS v } := by
  rw [show ("節／ラウンド：" ++ v) =
    String.mk (('節' :: ("／ラウンド：").data) ++ v.data) from rfl]
  unfold parse_desc
  rw [descLines_single '節' (("／ラウンド：").data) v (by decide) (by decide) (by decide) hv]
  rw [List.foldl_cons, List.foldl_nil, descStep_setsu_full, pyStripL_rstripL]
  unfold descMerge
  rw [if_neg (by
    rintro ⟨_, hne⟩
    exact hne rfl)]
  rfl

lemma parse_desc_setsu_half (v : String) (hv : cleanStr v) :
    parse_desc ("節/ラウンド：" ++ v) = { emptyParsed with round := pyStripS v } := by
  rw [show ("節/ラウンド：" ++ v) =
    String.mk (('節' :: ("/ラウンド：").data) ++ v.data) from rfl]
  unfold parse_desc
  rw [descLines_single '節' (("/ラウンド：").data) v (by decide) (by decide) (by decide) hv]
  rw [List.foldl_cons, List.foldl_nil, descStep_setsu_half, pyStripL_rstripL]
  unfold descMerge
  rw [if_neg (by
    rintro ⟨_, hne⟩
    exact hne rfl)]
  rfl

lemma parse_desc_kubun_valid (v : String) (hv : cleanStr v)
    (hk : pyStripS v = "予定" ∨ pyStripS v = "結果") :
    parse_desc ("区分：" ++ v) = { emptyParsed with kind := pyStripS v } := by
  rw [show ("区分：" ++ v) = String.mk (('区' :: ("分：").data) ++ v.data) from rfl]
  unfold parse_desc
  rw [descLines_single '区' (("分：").data) v (by decide) (by decide) (by decide) hv]
  rw [List.foldl_cons, List.foldl_nil, descStep_kubun, pyStripL_rstripL]
  rw [if_pos (show String.mk (pyStripL v.data) = "予定" ∨
    String.mk (pyStripL v.data) = "結果" from hk)]
  rfl

lemma parse_desc_kubun_invalid (v : String) (hv : cleanStr v)
    (h1 : pyStripS v ≠ "予定") (h2 : pyStripS v ≠ "結果") :
    parse_desc ("区分：" ++ v) = { emptyParsed with round := pyStripS v } := by
  rw [show ("区分：" ++ v) = String.mk (('区' :: ("分：").data) ++ v.data) from rfl]
  unfold parse_desc
  rw [descLines_single '区' (("分：").data) v (by decide) (by decide) (by decide) hv]
  rw [List.foldl_cons, List.foldl_nil, descStep_kubun, pyStripL_rstripL]
  rw [if_neg (by
    rintro (h | h)
    · exact h1 h
    · exact h2 h)]
  unfold descMerge
  by_cases hx : String.mk (pyStripL v.data) = ""
  · rw [if_neg (by
      rintro ⟨_, hne⟩
      exact hne hx)]
    rw [show pyStripS v = String.mk (pyStripL v.data) from rfl, hx]
    rfl
  · rw [if_pos ⟨rfl, hx⟩]
    rfl

lemma parse_desc_kakudo (v : String) (hv : cleanStr v) :
    parse_desc ("確度：" ++ v) = { emptyParsed with certainty := pyStripS v } := by
  rw [show ("確度：" ++ v) = String.mk (('確' :: ("度：").data) ++ v.data) from rfl]
  unfold parse_desc
  rw [descLines_single '確' (("度：").data) v (by decide) (by decide) (by decide) hv]
  rw [List.foldl_cons, List.foldl_nil, descStep_kakudo, pyStripL_rstripL]
  rfl

lemma parse_desc_shutten (v : String) (hv : cleanStr v) :
    parse_desc ("出典：" ++ v) = { emptyParsed with source := pyStripS v } := by
  rw [show ("出典：" ++ v) = String.mk (('出' :: ("典：").data) ++ v.data) from rfl]
  unfold parse_desc
  rw [descLines_single '出' (("典：").data) v (by decide) (by decide) (by decide) hv]
  rw [List.foldl_cons, List.foldl_nil, descStep_shutten, pyStripL_rstripL]
  rfl

lemma parse_desc_sukoa (v : String) (hv : cleanStr v) :
    parse_desc ("スコア：" ++ v) = { emptyParsed with score := pyStripS v } := by
  rw [show ("スコア：" ++ v) = String.mk (('ス' :: ("コア：").data) ++ v.data) from rfl]
  unfold parse_desc
  rw [descLines_single 'ス' (("コア：").data) v (by decide) (by decide) (by decide) hv]
  rw [List.foldl_cons, List.foldl_nil, descStep_sukoa, pyStripL_rstripL]
  rfl

lemma parse_desc_taisen (v : String) (hv : cleanStr v) :
    (parse_desc ("対戦：" ++ v)).matchVal = pyStripS v := by
  rw [show ("対戦：" ++ v) = String.mk (('対' :: ("戦：").data) ++ v.data) from rfl]
  unfold parse_desc
  rw [descLines_single '対' (("戦：").data) v (by decide) (by decide) (by decide) hv]
  rw [List.foldl_cons, List.foldl_nil, descStep_taisen, pyStripL_rstripL]
  unfold descMerge
  rw [if_neg (by
    rintro ⟨_, hne⟩
    exact hne rfl)]
  rw [mergeMatch_matchVal]
  rfl

lemma parse_desc_homeLbl (v : String) (hv : cleanStr v) :
    parse_desc ("ホーム：" ++ v) = { emptyParsed with home := pyStripS v } := by
  rw [show ("ホーム：" ++ v) = String.mk (('ホ' :: ("ーム：").data) ++ v.data) from rfl]
  unfold parse_desc
  rw [descLines_single 'ホ' (("ーム：").data) v (by decide) (by decide) (by decide) hv]
  rw [List.foldl_cons, List.foldl_nil, descStep_homeLbl, pyStripL_rstripL]
  unfold descMerge
  rw [if_neg (by
    rintro ⟨_, hne⟩
    exact hne rfl)]
  unfold mergeMatch
  rw [if_neg (by
    rintro ⟨_, hne⟩
    exact hne rfl)]
  rfl

lemma parse_desc_awayLbl (v : String) (hv : cleanStr v) :
    parse_desc ("アウェイ：" ++ v) = { emptyParsed with away := pyStripS v } := by
  rw [show ("アウェイ：" ++ v) = String.mk (('ア' :: ("ウェイ：").data) ++ v.data) from rfl]
  unfold parse_desc
  rw [descLines_single 'ア' (("ウェイ：").data) v (by decide) (by decide) (by decide) hv]
  rw [List.foldl_cons, List.foldl_nil, descStep_awayLbl, pyStripL_rstripL]
  unfold descMerge
  rw [if_neg (by
    rintro ⟨_, hne⟩
    exact hne rfl)]
  unfold mergeMatch
  rw [if_neg (by
    rintro ⟨_, hne⟩
    exact hne rfl)]
  rfl

lemma parse_desc_taikai_half (v : String) (hv : cleanStr v) :
    parse_desc ("大会:" ++ v) = emptyParsed := by
  rw [show ("大会:" ++ v) = String.mk (('大' :: ("会:").data) ++ v.data) from rfl]
  unfold parse_desc
  rw [descLines_single '大' (("会:").data) v (by decide) (by decide) (by decide) hv]
  rw [List.foldl_cons, List.foldl_nil, descStep_taikai_half]
  rfl

lemma parse_desc_kubun_half (v : String) (hv : cleanStr v) :
    parse_desc ("区分:" ++ v) = emptyParsed := by
  rw [show ("区分:" ++ v) = String.mk (('区' :: ("分:").data) ++ v.data) from rfl]
  unfold parse_desc
  rw [descLines_single '区' (("分:").data) v (by decide) (by decide) (by decide) hv]
  rw [List.foldl_cons, List.foldl_nil, descStep_kubun_half]
  rfl

/-- C8 counterexample: a known label followed by a halfwidth colon is NOT
parsed like the fullwidth form — the line is ignored entirely, because the
label matching is a `startswith` against fullwidth-colon prefixes, not a
split on either colon. -/
theorem c8_counterexample :
    (parse_desc ("大会:X")).tournament = "" ∧ (parse_desc ("大会：X")).tournament = "X" := by
  refine ⟨by decide, by decide⟩

/-- C8 amended: a known label followed by the fullwidth colon has its
trimmed value extracted into the corresponding canonical key (for 区分 only
when the value is a valid enum token); but a halfwidth colon after the
label is not recognized — such a line is ignored and the parse result stays
empty. -/
theorem c8_label_extraction (v : String) (hv : cleanStr v) :
    (parse_desc ("種別：" ++ v)).ptype = pyStripS v ∧
      (parse_desc ("大会：" ++ v)).tournament = pyStripS v ∧
      (parse_desc ("ラウンド：" ++ v)).round = pyStripS v ∧
      (parse_desc ("節／ラウンド：" ++ v)).round = pyStripS v ∧
      (parse_desc ("節/ラウンド：" ++ v)).round = pyStripS v ∧
      (pyStripS v = "予定" ∨ pyStripS v = "結果" →
        (parse_desc ("区分：" ++ v)).kind = pyStripS v) ∧
      (parse_desc ("確度：" ++ v)).certainty = pyStripS v ∧
      (parse_desc ("出典：" ++ v)).source = pyStripS v ∧
      (parse_desc ("スコア：" ++ v)).score = pyStripS v ∧
      (parse_desc ("対戦：" ++ v)).matchVal = pyStripS v ∧
      (parse_desc ("ホーム：" ++ v)).home = pyStripS v ∧
      (parse_desc ("アウェイ：" ++ v)).away = pyStripS v ∧
      parse_desc ("大会:" ++ v) = emptyParsed ∧
      parse_desc ("区分:" ++ v) = emptyParsed := by
  refine ⟨?_, ?_, ?_, ?_, ?_, ?_, ?_, ?_, ?_, ?_, ?_, ?_, ?_, ?_⟩
  · rw [parse_desc_shubetsu v hv]
  · rw [parse_desc_taikai v hv]
  · rw [parse_desc_round v hv]
  · rw [parse_desc_setsu_full v hv]
  · rw [parse_desc_setsu_half v hv]
  · intro hk
    rw [parse_desc_kubun_valid v hv hk]
  · rw [parse_desc_kakudo v hv]
  · rw [parse_desc_shutten v hv]
  · rw [parse_desc_sukoa v hv]
  · exact parse_desc_taisen v hv
  · rw [parse_desc_homeLbl v hv]
  · rw [parse_desc_awayLbl v hv]
  · exact parse_desc_taikai_half v hv
  · exact parse_desc_kubun_half v hv

/-- C8 witness: the extraction theorem applied at the value 第1節. -/
theorem c8_label_extraction_witness :
    (parse_desc ("種別：" ++ "第1節")).ptype = pyStripS ("第1節") ∧
      (parse_desc ("大会：" ++ "第1節")).tournament = pyStripS ("第1節") ∧
      (parse_desc ("ラウンド：" ++ "第1節")).round = pyStripS ("第1節") ∧
      (parse_desc ("節／ラウンド：" ++ "第1節")).round = pyStripS ("第1節") ∧
      (parse_desc ("節/ラウンド：" ++ "第1節")).round = pyStripS ("第1節") ∧
      (pyStripS ("第1節") = "予定" ∨ pyStripS ("第1節") = "結果" →
        (parse_desc ("区分：" ++ "第1節")).kind = pyStripS ("第1節")) ∧
      (parse_desc ("確度：" ++ "第1節")).certainty = pyStripS ("第1節") ∧
      (parse_desc ("出典：" ++ "第1節")).source = pyStripS ("第1節") ∧
      (parse_desc ("スコア：" ++ "第1節")).score = pyStripS ("第1節") ∧
      (parse_desc ("対戦：" ++ "第1節")).matchVal = pyStripS ("第1節") ∧
      (parse_desc ("ホーム：" ++ "第1節")).home = pyStripS ("第1節") ∧
      (parse_desc ("アウェイ：" ++ "第1節")).away = pyStripS ("第1節") ∧
      parse_desc ("大会:" ++ "第1節") = emptyParsed ∧
      parse_desc ("区分:" ++ "第1節") = emptyParsed :=
  c8_label_extraction ("第1節") (by decide)

/-- C6: a 区分： line whose value is not one of the two enum tokens has its
value redirected to the round (the description being that single line, so
no explicit round label is present), the parsed kind stays empty, and the
resolved statusKind falls back to the start-timestamp inference. -/
theorem c6_legacy_kind_round (v : String) (now : PyDT) (ev : RawEvent) (st : PyDT)
    (it : Item) (hv : cleanStr v) (h1 : pyStripS v ≠ "予定") (h2 : pyStripS v ≠ "結果")
    (hdesc : ev.description = "区分：" ++ v) (hst : ev.dtstart = some st)
    (hok : build_item now ev = .ok it) :
    (parse_desc ("区分：" ++ v)).round = pyStripS v ∧
      (parse_desc ("区分：" ++ v)).kind = "" ∧
      it.round = pyStripS v ∧
      it.kind = (if dtLtB now st then "予定" else "結果") := by
  have hp := parse_desc_kubun_invalid v hv h1 h2
  unfold build_item at hok
  rw [hst] at hok
  injection hok with hok2
  subst hok2
  have hk0 : (parse_desc ("区分：" ++ v)).kind = "" := by
    rw [hp]
    rfl
  have hr0 : (parse_desc ("区分：" ++ v)).round = pyStripS v := by
    rw [hp]
  refine ⟨hr0, hk0, ?_, ?_⟩
  · rw [mkItem_round, hdesc, hr0]
  · rw [mkItem_kind, hdesc, hk0]
    rw [if_neg (by decide)]

def evC6 : RawEvent :=
  ⟨"u6", "s", "", "区分：" ++ "予選リーグ（Aグループ）", some ⟨2025, 1, 1, 12, 0, 0⟩, none⟩

/-- C6 witness: the legacy-fallback theorem applied at the spec's example
value 予選リーグ（Aグループ）. -/
theorem c6_legacy_kind_round_witness :
    (parse_desc ("区分：" ++ "予選リーグ（Aグループ）")).round =
        pyStripS ("予選リーグ（Aグループ）") ∧
      (parse_desc ("区分：" ++ "予選リーグ（Aグループ）")).kind = "" ∧
      (itemOf (build_item nowC evC6)).round = pyStripS ("予選リーグ（Aグループ）") ∧
      (itemOf (build_item nowC evC6)).kind =
        (if dtLtB nowC ⟨2025, 1, 1, 12, 0, 0⟩ then "予定" else "結果") :=
  c6_legacy_kind_round ("予選リーグ（Aグループ）") nowC evC6 ⟨2025, 1, 1, 12, 0, 0⟩
    (itemOf (build_item nowC evC6)) (by decide) (by decide) (by decide) rfl rfl rfl
